import Mathlib

/-!
# grpc-hub: rendezvous queue, service registry and byte bridge

A shallow embedding of three Go source files of the reverse-tunnel broker:

* `pkg/repo/connection.go`: `ConnectionQueue` (`NewConnectionQueue`, `AddRequest`,
  `AddConnection`);
* `exchange/main.go`: `ExchangeService` (`RegisterService` with its control-stream
  forwarder loop, `GetService`);
* `pkg/core/network/bridge.go`: `Bridge` (`Run`, `Close`).

Conventions of the embedding.

* A Go `error` is an `Option GoError`; `none` is the nil error.
* A Go map is an association list with at most one pair per key (`mapGet`, `mapSet`,
  `mapDelete`).
* The `uint64` counter is a natural number reduced modulo `2 ^ 64` at every increment.
* Every operation returns, next to its outcome and the new state, the list of `Step`s it
  reaches in program order: mutex operations, accesses to the shared tables, channel
  operations, log calls and calls into collaborators.
* An operation that sends on a channel need not return: the send panics on a closed channel
  and blocks on a nil channel or while nobody can take the value.  The outcome of such an
  operation is an `Outcome`: `returned`, `blocked` or `panicked`; after `blocked` and
  `panicked` the last step is the channel operation that was reached and did not complete,
  and the state is the one at that point.
* The channels of `ConnResult` that a `ConnectionQueue` sends on live in a heap `Chans`,
  which records for each channel what was sent on it, how many more sends can complete at
  once, and whether it is closed.
* What the environment decides (which case of a `select` fires, whether the send on a
  response channel completes, what `WaitForConn` leaves in the command it is given a pointer
  to, what `stream.Send`, `Read`, `Write` and `Close` return, in which order goroutines
  report) is an explicit argument.  The calls `WaitForConn` and `stream.Send` into the
  collaborators are taken to return.
* `io.Copy` is the function of the Go standard library; it is modelled from its documentation.
-/

namespace GrpcHub

/-! ## Go errors -/

/-- Go error values as trees.  `sentinel` is a package-level error variable, compared by
identity; `errorf` is a fresh error made by `fmt.Errorf` without a wrapping verb; `wrap` is
`fmt.Errorf` with one `%w` operand; `join` is the result of `errors.Join` on a non-empty list
of non-nil errors. -/
inductive GoError where
  | sentinel (name : String)
  | errorf (msg : String)
  | wrap (msg : String) (inner : GoError)
  | join (errs : List GoError)

mutual
/-- Decision procedure for equality of error trees. -/
def GoError.decEq : (a b : GoError) → Decidable (a = b)
  | .sentinel x, .sentinel y =>
    if h : x = y then isTrue (by rw [h]) else isFalse (by intro c; cases c; exact h rfl)
  | .errorf x, .errorf y =>
    if h : x = y then isTrue (by rw [h]) else isFalse (by intro c; cases c; exact h rfl)
  | .wrap m x, .wrap n y =>
    if h : m = n then
      match GoError.decEq x y with
      | isTrue h2 => isTrue (by rw [h, h2])
      | isFalse h2 => isFalse (by intro c; cases c; exact h2 rfl)
    else isFalse (by intro c; cases c; exact h rfl)
  | .join xs, .join ys =>
    match GoError.decEqList xs ys with
    | isTrue h => isTrue (by rw [h])
    | isFalse h => isFalse (by intro c; cases c; exact h rfl)
  | .sentinel _, .errorf _ => isFalse (by intro c; cases c)
  | .sentinel _, .wrap _ _ => isFalse (by intro c; cases c)
  | .sentinel _, .join _ => isFalse (by intro c; cases c)
  | .errorf _, .sentinel _ => isFalse (by intro c; cases c)
  | .errorf _, .wrap _ _ => isFalse (by intro c; cases c)
  | .errorf _, .join _ => isFalse (by intro c; cases c)
  | .wrap _ _, .sentinel _ => isFalse (by intro c; cases c)
  | .wrap _ _, .errorf _ => isFalse (by intro c; cases c)
  | .wrap _ _, .join _ => isFalse (by intro c; cases c)
  | .join _, .sentinel _ => isFalse (by intro c; cases c)
  | .join _, .errorf _ => isFalse (by intro c; cases c)
  | .join _, .wrap _ _ => isFalse (by intro c; cases c)
/-- Decision procedure for equality of lists of error trees. -/
def GoError.decEqList : (a b : List GoError) → Decidable (a = b)
  | [], [] => isTrue rfl
  | [], _ :: _ => isFalse (by intro c; cases c)
  | _ :: _, [] => isFalse (by intro c; cases c)
  | x :: xs, y :: ys =>
    match GoError.decEq x y with
    | isTrue h =>
      match GoError.decEqList xs ys with
      | isTrue h2 => isTrue (by rw [h, h2])
      | isFalse h2 => isFalse (by intro c; cases c; exact h2 rfl)
    | isFalse h => isFalse (by intro c; cases c; exact h rfl)
end

instance : DecidableEq GoError := GoError.decEq

mutual
/-- The traversal of `errors.Is(err, target)` for a sentinel `target`: the error itself, then
what it wraps, depth first; for a joined error every member in turn. -/
def errorsIs (target : String) : GoError → Bool
  | .sentinel n => n == target
  | .errorf _ => false
  | .wrap _ inner => errorsIs target inner
  | .join errs => errorsIsAny target errs
/-- The loop of `errors.Is` over the members of a joined error. -/
def errorsIsAny (target : String) : List GoError → Bool
  | [] => false
  | e :: rest => errorsIs target e || errorsIsAny target rest
end

mutual
/-- The error `e` occurs in the tree `t`: it is `t`, or occurs in what `t` wraps or joins. -/
def GoError.contains (e : GoError) : GoError → Bool
  | .sentinel n => decide (e = .sentinel n)
  | .errorf m => decide (e = .errorf m)
  | .wrap m inner => decide (e = .wrap m inner) || GoError.contains e inner
  | .join errs => decide (e = .join errs) || GoError.containsAny e errs
/-- The error `e` occurs in one of the trees of the list. -/
def GoError.containsAny (e : GoError) : List GoError → Bool
  | [] => false
  | t :: rest => GoError.contains e t || GoError.containsAny e rest
end

/-- Name of the sentinel `net.ErrClosed` ("use of closed network connection"). -/
def netErrClosed : String := "net.ErrClosed"

/-- Modelled from the spec: the sentinel `exchange.ErrConnReqNotFound`, declared in a package
that is not among the sources; the spec names it as the result of resolving an id that has no
entry. -/
def ErrConnReqNotFound : GoError := .sentinel "exchange.ErrConnReqNotFound"

/-! ## Go maps -/

/-- Lookup `m[k]` with its presence flag: `none` when `k` is not a key. -/
def mapGet {κ ν : Type} [DecidableEq κ] : List (κ × ν) → κ → Option ν
  | [], _ => none
  | (k0, v) :: rest, k => if k0 = k then some v else mapGet rest k

/-- The builtin `delete(m, k)`. -/
def mapDelete {κ ν : Type} [DecidableEq κ] (m : List (κ × ν)) (k : κ) : List (κ × ν) :=
  m.filter (fun e => decide (e.1 ≠ k))

/-- Assignment `m[k] = v`: the pair for `k` replaces the one present, if any. -/
def mapSet {κ ν : Type} [DecidableEq κ] (m : List (κ × ν)) (k : κ) (v : ν) : List (κ × ν) :=
  (k, v) :: mapDelete m k

/-- Keys of a map. -/
def mapKeys {κ ν : Type} (m : List (κ × ν)) : List κ := m.map Prod.fst

/-! ## Data -/

/-- Identity of a Go channel. -/
abbrev Chan := Nat

/-- Modelled from the spec: `exchange.ConnResult`, declared in a package that is not among the
sources: "a tagged result: either a live byte-stream connection or an error".  A connection
is known by its identity. -/
inductive ConnResult where
  | conn (c : Nat)
  | err (e : GoError)
deriving DecidableEq

/-- Modelled from the spec: the type `ConnectCommand` of package `main`, declared in a file
that is not among the sources; the fields are the ones `RegisterService` reads. -/
structure ConnectCommand where
  NameSpace : String
  Name : String
  ID : Nat
  RespChan : Chan
deriving DecidableEq

/-- The message `api.ConnectCommand` sent on the control stream. -/
structure ApiConnectCommand where
  NameSpace : String
  ServiceName : String
  Id : Nat
deriving DecidableEq

/-- The request `api.RegisterRequest`. -/
structure RegisterRequest where
  NameSpace : String
  ServiceName : String
deriving DecidableEq

/-- Modelled from the spec: the type `Service` of package `main`, declared in a file that is
not among the sources: namespace, name, command channel and the lifecycle context of the
control stream, the four arguments of `NewService`. -/
structure Service where
  ctx : Nat
  NameSpace : String
  Name : String
  commandChan : Chan
deriving DecidableEq

/-- Modelled from the spec: the constructor `NewService`, declared in a file that is not among
the sources; it records its four arguments. -/
def NewService (ctx : Nat) (nameSpace name : String) (commandChan : Chan) : Service :=
  { ctx := ctx, NameSpace := nameSpace, Name := name, commandChan := commandChan }

/-- The two mutexes: `ConnectionQueue.l` and `ExchangeService.lock`. -/
inductive Mutex where
  | queue
  | registry
deriving DecidableEq

/-- One step of an operation, in program order: a statement that was reached.  The last step
of an operation that ends blocked or panicked is the channel operation that did not
complete. -/
inductive Step where
  | lock (m : Mutex)
  | unlock (m : Mutex)
  | counterIncr (newID : Nat)
  | storeInsert (id : Nat) (ch : Chan)
  | storeLookup (id : Nat)
  | storeDelete (id : Nat)
  | chanSend (ch : Chan) (v : ConnResult)
  | chanClose (ch : Chan)
  | srvsInsert (name : String) (srv : Service)
  | srvsLookup (name : String)
  | srvsRange (name : String)
  | log (msg : String)
  | respSend (ch : Chan) (e : GoError)
  | waitForConn (cmd waited : ConnectCommand)
  | streamSend (msg : ApiConnectCommand)
deriving DecidableEq

/-! ## Go channels -/

/-- How an operation ends: it returns a value, it stays blocked in a channel send, or it
panics. -/
inductive Outcome (α : Type) where
  | returned (a : α)
  | blocked
  | panicked
deriving DecidableEq

/-- The state of a channel of `ConnResult`: the values sent on it so far, in order; the number
of further sends that complete at once (free slots of the buffer and receivers that are
ready); whether it is closed. -/
structure ChanState where
  delivered : List ConnResult
  room : Nat
  closed : Bool
deriving DecidableEq

/-- The channels by identity; an identity that the heap does not hold is the nil channel. -/
abbrev Chans := List (Chan × ChanState)

/-- The send statement `ch <- v`: on a closed channel it panics; on the nil channel, and on an
open channel with no room, it blocks; otherwise the value is delivered. -/
def sendOn (chans : Chans) (ch : Chan) (v : ConnResult) : Outcome Chans :=
  match mapGet chans ch with
  | none => .blocked
  | some st =>
    if st.closed then .panicked
    else if st.room = 0 then .blocked
    else .returned
      (mapSet chans ch { st with delivered := st.delivered ++ [v], room := st.room - 1 })

/-- The builtin `close(ch)`: on the nil channel and on a closed channel it panics; otherwise
the channel is closed. -/
def closeChan (chans : Chans) (ch : Chan) : Outcome Chans :=
  match mapGet chans ch with
  | none => .panicked
  | some st =>
    if st.closed then .panicked
    else .returned (mapSet chans ch { st with closed := true })

/-- Whether a send decided by the environment completes. -/
inductive SendOutcome where
  | completes
  | blocks
  | panics
deriving DecidableEq

/-! ## `pkg/repo/connection.go` -/

/-- The struct `ConnectionQueue`; the mutex `l` shows up as `Step.lock`/`Step.unlock`. -/
structure ConnectionQueue where
  currentID : Nat
  store : List (Nat × Chan)
deriving DecidableEq

/-- The constructor `NewConnectionQueue`: counter zero, empty table. -/
def NewConnectionQueue : ConnectionQueue :=
  { currentID := 0, store := [] }

/-- The method `AddRequest`: under the lock, increment the counter (a `uint64`), store the
channel under the new value, return it; the deferred unlock runs last. -/
def ConnectionQueue.AddRequest (q : ConnectionQueue) (connChan : Chan) :
    Nat × List Step × ConnectionQueue :=
  let id := (q.currentID + 1) % 2 ^ 64
  (id,
   [.lock .queue, .counterIncr id, .storeInsert id connChan, .unlock .queue],
   { currentID := id, store := mapSet q.store id connChan })

/-- The method `AddConnection`: look the id up under the lock and release the lock; when the id
is absent return `ErrConnReqNotFound`; when it is present send the result on its channel,
close the channel, delete the id and return nil.  The send and the close may not complete:
the method then ends blocked or panicked at that statement, before the delete. -/
def ConnectionQueue.AddConnection (q : ConnectionQueue) (chans : Chans) (id : Nat)
    (conn : ConnResult) : Outcome (Option GoError) × List Step × ConnectionQueue × Chans :=
  match mapGet q.store id with
  | none =>
    (.returned (some ErrConnReqNotFound),
     [.lock .queue, .storeLookup id, .unlock .queue], q, chans)
  | some ch =>
    match sendOn chans ch conn with
    | .panicked =>
      (.panicked, [.lock .queue, .storeLookup id, .unlock .queue, .chanSend ch conn], q, chans)
    | .blocked =>
      (.blocked, [.lock .queue, .storeLookup id, .unlock .queue, .chanSend ch conn], q, chans)
    | .returned sent =>
      match closeChan sent ch with
      | .panicked =>
        (.panicked,
         [.lock .queue, .storeLookup id, .unlock .queue, .chanSend ch conn, .chanClose ch],
         q, sent)
      | .blocked =>
        (.blocked,
         [.lock .queue, .storeLookup id, .unlock .queue, .chanSend ch conn, .chanClose ch],
         q, sent)
      | .returned closed =>
        (.returned none,
         [.lock .queue, .storeLookup id, .unlock .queue,
          .chanSend ch conn, .chanClose ch, .storeDelete id],
         { q with store := mapDelete q.store id }, closed)

/-- A call on a `ConnectionQueue`. -/
inductive Call where
  | addRequest (connChan : Chan)
  | addConnection (id : Nat) (conn : ConnResult)
deriving DecidableEq

/-- How a call ends: `AddRequest` returns its id, `AddConnection` ends with an outcome. -/
inductive Reply where
  | id (n : Nat)
  | err (e : Outcome (Option GoError))
deriving DecidableEq

/-- One call: its reply, its steps, the new queue and the new channels. -/
def ConnectionQueue.call (q : ConnectionQueue) (chans : Chans) :
    Call → Reply × List Step × ConnectionQueue × Chans
  | .addRequest ch => let r := q.AddRequest ch; (.id r.1, r.2.1, r.2.2, chans)
  | .addConnection id conn =>
    let r := q.AddConnection chans id conn
    (.err r.1, r.2.1, r.2.2.1, r.2.2.2)

/-- A sequence of calls, each started when the one before has ended: the replies with their
steps, the final queue and the final channels.  A call that ends blocked or panicked leaves
the state as it is at that point; the calls after it are those of other goroutines. -/
def ConnectionQueue.run (q : ConnectionQueue) (chans : Chans) :
    List Call → List (Reply × List Step) × ConnectionQueue × Chans
  | [] => ([], q, chans)
  | c :: rest =>
    let r := q.call chans c
    let t := ConnectionQueue.run r.2.2.1 r.2.2.2 rest
    ((r.1, r.2.1) :: t.1, t.2)

/-- The ids returned by the `AddRequest` calls of a run, in call order. -/
def issuedIds : List (Reply × List Step) → List Nat
  | [] => []
  | (.id n, _) :: rest => n :: issuedIds rest
  | (.err _, _) :: rest => issuedIds rest

/-- Number of `AddRequest` calls in a sequence of calls. -/
def countAddRequest : List Call → Nat
  | [] => 0
  | .addRequest _ :: rest => countAddRequest rest + 1
  | .addConnection _ _ :: rest => countAddRequest rest

/-- The channel operations among the steps of an operation, in order. -/
def chanSteps : List Step → List Step
  | [] => []
  | .chanSend ch v :: rest => .chanSend ch v :: chanSteps rest
  | .chanClose ch :: rest => .chanClose ch :: chanSteps rest
  | _ :: rest => chanSteps rest

/-! ## `exchange/main.go` -/

/-- The struct `ExchangeService`: the map `srvs`; the mutex `lock` shows up as
`Step.lock`/`Step.unlock`, the pooler as `Step.waitForConn`. -/
structure ExchangeService where
  srvs : List (String × Service)
deriving DecidableEq

/-- The registry as `startAPI` builds it: `srvs: make(map[string]*Service)`. -/
def newExchangeService : ExchangeService :=
  { srvs := [] }

/-- What one round of the `select` in `RegisterService` yields: the stream context is done,
the command channel is closed, or a command `cmd` is received.  With a command comes what the
environment does for it: `resp` tells whether a send on `cmd.RespChan` completes (the channel
belongs to the requester); `waited` is the command as `WaitForConn`, which is given a pointer
to it, leaves it (the pooler is not among the sources); `sendErr` is what `stream.Send`
returns. -/
inductive LoopEvent where
  | ctxDone
  | chanClosed
  | command (cmd waited : ConnectCommand) (resp : SendOutcome) (sendErr : Option GoError)
deriving DecidableEq

/-- The message built for `stream.Send` from a command. -/
def toApi (cmd : ConnectCommand) : ApiConnectCommand :=
  { NameSpace := cmd.NameSpace, ServiceName := cmd.Name, Id := cmd.ID }

/-- The `for { select { ... } }` loop of `RegisterService` on the events the `select` yields.
The result is the list of steps and how the loop ends: `some (.returned none)` for
`return nil`, `some (.returned (some e))` for a returned error, `some .blocked` and
`some .panicked` when the send on a response channel, which stands outside the `select`, does
not complete, and `none` while the loop waits in the `select` (the events are used up). -/
def forwardLoop (serviceName : String) :
    List LoopEvent → List Step × Option (Outcome (Option GoError))
  | [] => ([], none)
  | .ctxDone :: _ => ([], some (.returned none))
  | .chanClosed :: _ => ([], some (.returned none))
  | .command cmd waited resp sendErr :: rest =>
    if cmd.Name ≠ serviceName then
      match resp with
      | .completes =>
        let t := forwardLoop serviceName rest
        (.log "invalid service name" ::
          .respSend cmd.RespChan (.errorf "service not found") :: t.1,
         t.2)
      | .blocks =>
        ([.log "invalid service name", .respSend cmd.RespChan (.errorf "service not found")],
         some .blocked)
      | .panics =>
        ([.log "invalid service name", .respSend cmd.RespChan (.errorf "service not found")],
         some .panicked)
    else
      match sendErr with
      | some e =>
        ([.waitForConn cmd waited, .streamSend (toApi waited)],
         some (.returned (some (.wrap "failed to send command" e))))
      | none =>
        let t := forwardLoop serviceName rest
        (.waitForConn cmd waited :: .streamSend (toApi waited) :: t.1, t.2)

/-- The method `RegisterService`: make the service with a fresh command channel, store it under
its name with the lock held, log, then run the forwarder loop.  The arguments `ctx` and
`commandChan` are the identities of `stream.Context()` and of the channel made. -/
def ExchangeService.RegisterService (s : ExchangeService) (req : RegisterRequest) (ctx : Nat)
    (commandChan : Chan) (events : List LoopEvent) :
    Option (Outcome (Option GoError)) × List Step × ExchangeService :=
  let srv := NewService ctx req.NameSpace req.ServiceName commandChan
  let t := forwardLoop req.ServiceName events
  (t.2,
   [.lock .registry, .srvsInsert req.ServiceName srv, .unlock .registry,
    .log "Service registered"] ++ t.1,
   { srvs := mapSet s.srvs req.ServiceName srv })

/-- The steps of the `range` loop in `GetService`: per entry one read and one log call. -/
def rangeLog : List (String × Service) → List Step
  | [] => []
  | (k, _) :: rest => .srvsRange k :: .log "Service" :: rangeLog rest

/-- The method `GetService`: with the lock held until return, look the name up; when absent log
every entry and return the error "service not found", otherwise return the service. -/
def ExchangeService.GetService (s : ExchangeService) (address : String) :
    (Option Service × Option GoError) × List Step × ExchangeService :=
  match mapGet s.srvs address with
  | none =>
    ((none, some (.errorf "service not found")),
     [.lock .registry, .srvsLookup address] ++ rangeLog s.srvs ++ [.unlock .registry],
     s)
  | some srv =>
    ((some srv, none), [.lock .registry, .srvsLookup address, .unlock .registry], s)

/-- One registration: the request and what the environment supplies to `RegisterService`. -/
structure Registration where
  req : RegisterRequest
  ctx : Nat
  commandChan : Chan
  events : List LoopEvent
deriving DecidableEq

/-- The registry after a sequence of `RegisterService` calls, in the order in which they take
the lock. -/
def registerAll (s : ExchangeService) : List Registration → ExchangeService
  | [] => s
  | r :: rest => registerAll (s.RegisterService r.req r.ctx r.commandChan r.events).2.2 rest

/-- The service made by the most recent registration whose `ServiceName` is `name`, if there is
one: the reading of "last write wins" that `GetService` is compared with. -/
def lastRegistered (name : String) : List Registration → Option Service
  | [] => none
  | r :: rest =>
    match lastRegistered name rest with
    | some srv => some srv
    | none =>
      if r.req.ServiceName = name then
        some (NewService r.ctx r.req.NameSpace r.req.ServiceName r.commandChan)
      else none

/-- Every `stream.Send` among the steps comes right after a `WaitForConn`, and carries the
namespace, name and id of the command that `WaitForConn` was called for, as the call left
them. -/
def sendsFollowWaits : List Step → Bool
  | [] => true
  | .waitForConn _ waited :: .streamSend msg :: rest =>
    decide (msg = toApi waited) && sendsFollowWaits rest
  | .streamSend _ :: _ => false
  | _ :: rest => sendsFollowWaits rest

/-! ## Lock discipline -/

/-- The mutex that guards the structure a step reads or writes, for every access to the two
shared tables and the counter. -/
def guardOf : Step → Option Mutex
  | .counterIncr _ => some .queue
  | .storeInsert _ _ => some .queue
  | .storeLookup _ => some .queue
  | .storeDelete _ => some .queue
  | .srvsInsert _ _ => some .registry
  | .srvsLookup _ => some .registry
  | .srvsRange _ => some .registry
  | _ => none

/-- As `guardOf`, for reads and inserts only: `storeDelete` is not looked at. -/
def guardOfReadInsert : Step → Option Mutex
  | .storeDelete _ => none
  | st => guardOf st

/-- Steps that are I/O: channel operations, log calls, the stream send and the call into the
pooler. -/
def ioStep : Step → Bool
  | .chanSend _ _ => true
  | .chanClose _ => true
  | .respSend _ _ => true
  | .log _ => true
  | .streamSend _ => true
  | .waitForConn _ _ => true
  | _ => false

/-- Every step that `guard` assigns a mutex to runs while that mutex is in `held`. -/
def accessesLocked (guard : Step → Option Mutex) (held : List Mutex) : List Step → Bool
  | [] => true
  | .lock m :: rest => accessesLocked guard (m :: held) rest
  | .unlock m :: rest => accessesLocked guard (held.filter (fun x => decide (x ≠ m))) rest
  | st :: rest =>
    (match guard st with
     | some m => decide (m ∈ held)
     | none => true) && accessesLocked guard held rest

/-- Steps that deliver on a channel or close one. -/
def chanDelivery : Step → Bool
  | .chanSend _ _ => true
  | .chanClose _ => true
  | .respSend _ _ => true
  | _ => false

/-- No step of the kind `io` runs while a mutex is in `held`. -/
def noIoWhileLocked (io : Step → Bool) (held : List Mutex) : List Step → Bool
  | [] => true
  | .lock m :: rest => noIoWhileLocked io (m :: held) rest
  | .unlock m :: rest => noIoWhileLocked io (held.filter (fun x => decide (x ≠ m))) rest
  | st :: rest => (!io st || held.isEmpty) && noIoWhileLocked io held rest

/-- The discipline on the steps of an operation that starts with no mutex held: every table
access under the mutex of its structure, no I/O under a mutex. -/
def disciplined (steps : List Step) : Bool :=
  accessesLocked guardOf [] steps && noIoWhileLocked ioStep [] steps

/-! ## `pkg/core/network/bridge.go` -/

/-- A byte. -/
abbrev Byte := Nat

/-- An `io.ReadWriteCloser` as the environment drives it: the chunks successive `Read` calls
return, what `Read` returns once they are used up (`none` is `io.EOF`), the number of bytes
`Write` accepts in total before it fails with an error (`none`: it never fails), and what
`Close` returns. -/
structure Endpoint where
  input : List (List Byte)
  readEnd : Option GoError
  writeLimit : Option (Nat × GoError)
  closeErr : Option GoError
deriving DecidableEq

/-- What `io.Copy` returns, with the bytes the destination accepted. -/
structure CopyResult where
  written : Nat
  err : Option GoError
  output : List Byte
deriving DecidableEq

/-- The loop of `io.Copy` as the documentation of the Go standard library states it: read a
chunk and write it, until `Read` reports end of stream (the copy returns nil) or `Read` or
`Write` fails (the copy returns that error); the count returned is the number of bytes
written. -/
def copyLoop (writeLimit : Option (Nat × GoError)) (readEnd : Option GoError) :
    List (List Byte) → Nat → List Byte → CopyResult
  | [], written, out => { written := written, err := readEnd, output := out }
  | chunk :: rest, written, out =>
    match writeLimit with
    | none => copyLoop writeLimit readEnd rest (written + chunk.length) (out ++ chunk)
    | some (limit, ew) =>
      if written + chunk.length ≤ limit then
        copyLoop writeLimit readEnd rest (written + chunk.length) (out ++ chunk)
      else
        { written := written + (limit - written), err := some ew,
          output := out ++ chunk.take (limit - written) }

/-- The call `io.Copy(dst, src)`. -/
def ioCopy (dst src : Endpoint) : CopyResult :=
  copyLoop dst.writeLimit src.readEnd src.input 0 []

/-- The struct `Bridge`. -/
structure Bridge where
  src : Endpoint
  dest : Endpoint
deriving DecidableEq

/-- The constructor `NewBridge`. -/
def NewBridge (src dest : Endpoint) : Bridge :=
  { src := src, dest := dest }

/-- The struct `Stats`. -/
structure Stats where
  Sent : Int
  Recv : Int
  Duration : Nat
deriving DecidableEq

/-- The order in which the three values arrive on `errCh` in `Run`: the error of the copy into
`src` (`sent`), the error of the copy into `dest` (`recv`), the result of `Close`. -/
inductive Arrival where
  | sentRecvClose
  | sentCloseRecv
  | recvSentClose
  | recvCloseSent
  | closeSentRecv
  | closeRecvSent
deriving DecidableEq

/-- The three values in their order of arrival. -/
def Arrival.arrange {α : Type} (o : Arrival) (sent recv close : α) : List α :=
  match o with
  | .sentRecvClose => [sent, recv, close]
  | .sentCloseRecv => [sent, close, recv]
  | .recvSentClose => [recv, sent, close]
  | .recvCloseSent => [recv, close, sent]
  | .closeSentRecv => [close, sent, recv]
  | .closeRecvSent => [close, recv, sent]

/-- What the scheduler decides in a run of the bridge: the order of arrival on `errCh`, which
of the two `Close` goroutines reports first, and the time elapsed. -/
structure Schedule where
  order : Arrival
  destClosesFirst : Bool
  elapsed : Nat
deriving DecidableEq

/-- The receive loop of `Close`: the non-nil values, in order of arrival. -/
def nonNil : List (Option GoError) → List GoError
  | [] => []
  | none :: rest => nonNil rest
  | some e :: rest => e :: nonNil rest

/-- The method `Close`: close both endpoints, collect the non-nil results in order of arrival,
return them joined and wrapped, or nil when there is none. -/
def Bridge.Close (b : Bridge) (destClosesFirst : Bool) : Option GoError :=
  let errs :=
    if destClosesFirst then nonNil [b.dest.closeErr, b.src.closeErr]
    else nonNil [b.src.closeErr, b.dest.closeErr]
  if errs.length > 0 then some (.wrap "error to close connections" (.join errs)) else none

/-- The receive loop of `Run`: the values that are non-nil and for which
`errors.Is(err, net.ErrClosed)` is false, in order of arrival. -/
def collectErrs : List (Option GoError) → List GoError
  | [] => []
  | none :: rest => collectErrs rest
  | some e :: rest => if errorsIs netErrClosed e then collectErrs rest else e :: collectErrs rest

/-- What `Run` returns from the three values received on `errCh`. -/
def runError (arrived : List (Option GoError)) : Option GoError :=
  let errs := collectErrs arrived
  if errs.length > 0 then some (.wrap "error to run bridge" (.join errs)) else none

/-- What a run of the bridge yields: the two results of `Run`, and the bytes each endpoint
was given by the copy into it. -/
structure RunResult where
  stats : Stats
  err : Option GoError
  toSrc : List Byte
  toDest : List Byte
deriving DecidableEq

/-- The method `Run`: `sent` comes from `io.Copy(b.src, b.dest)`, `recv` from
`io.Copy(b.dest, b.src)`, the third value on `errCh` from `b.Close()`; the three are received,
filtered and joined. -/
def Bridge.Run (b : Bridge) (sch : Schedule) : RunResult :=
  let down := ioCopy b.src b.dest
  let up := ioCopy b.dest b.src
  { stats := { Sent := down.written, Recv := up.written, Duration := sch.elapsed },
    err := runError (sch.order.arrange down.err up.err (b.Close sch.destClosesFirst)),
    toSrc := down.output,
    toDest := up.output }

/-- An outcome the error policy lets pass: nil, or an error for which
`errors.Is(err, net.ErrClosed)` holds. -/
def closedOrNil : Option GoError → Bool
  | none => true
  | some e => errorsIs netErrClosed e

/-! ## Lemmas on maps -/

theorem mapGet_eq_none_iff {κ ν : Type} [DecidableEq κ] (m : List (κ × ν)) (k : κ) :
    mapGet m k = none ↔ k ∉ mapKeys m := by
  induction m with
  | nil => simp [mapGet, mapKeys]
  | cons e rest ih =>
    obtain ⟨k0, v⟩ := e
    by_cases h : k0 = k
    · simp [mapGet, mapKeys, h]
    · have h2 : ¬ k = k0 := fun c => h c.symm
      simp only [mapGet, h, if_false, ih]
      simp [mapKeys, h2]

theorem mapGet_mapDelete_self {κ ν : Type} [DecidableEq κ] (m : List (κ × ν)) (k : κ) :
    mapGet (mapDelete m k) k = none := by
  induction m with
  | nil => simp [mapGet, mapDelete]
  | cons e rest ih =>
    obtain ⟨k0, v⟩ := e
    by_cases h : k0 = k
    · simpa [mapDelete, h] using ih
    · simpa [mapDelete, h, mapGet] using ih

theorem mapGet_mapDelete_ne {κ ν : Type} [DecidableEq κ] (m : List (κ × ν)) (k j : κ)
    (hj : j ≠ k) : mapGet (mapDelete m k) j = mapGet m j := by
  induction m with
  | nil => simp [mapGet, mapDelete]
  | cons e rest ih =>
    obtain ⟨k0, v⟩ := e
    by_cases h : k0 = k
    · have h2 : ¬ k = j := fun c => hj c.symm
      subst h
      simpa [mapDelete, mapGet, h2] using ih
    · by_cases h3 : k0 = j
      · subst h3
        simp [mapDelete, mapGet, hj]
      · simpa [mapDelete, h, mapGet, h3] using ih

theorem mapGet_mapSet_self {κ ν : Type} [DecidableEq κ] (m : List (κ × ν)) (k : κ) (v : ν) :
    mapGet (mapSet m k v) k = some v := by
  simp [mapSet, mapGet]

theorem mapGet_mapSet_ne {κ ν : Type} [DecidableEq κ] (m : List (κ × ν)) (k j : κ) (v : ν)
    (hj : j ≠ k) : mapGet (mapSet m k v) j = mapGet m j := by
  have h : ¬ k = j := fun c => hj c.symm
  simp [mapSet, mapGet, h, mapGet_mapDelete_ne m k j hj]

/-! ## `ConnectionQueue.AddConnection` -/

theorem AddConnection_of_none (q : ConnectionQueue) (chans : Chans) (id : Nat)
    (conn : ConnResult) (h : mapGet q.store id = none) :
    q.AddConnection chans id conn
      = (.returned (some ErrConnReqNotFound),
         [.lock .queue, .storeLookup id, .unlock .queue], q, chans) := by
  simp only [ConnectionQueue.AddConnection, h]

/-- On an open channel with room the send and the close complete. -/
theorem AddConnection_of_open (q : ConnectionQueue) (chans : Chans) (id : Nat) (ch : Chan)
    (st : ChanState) (conn : ConnResult) (h : mapGet q.store id = some ch)
    (hch : mapGet chans ch = some st) (hopen : st.closed = false) (hroom : 0 < st.room) :
    q.AddConnection chans id conn =
      (.returned none,
       [.lock .queue, .storeLookup id, .unlock .queue,
        .chanSend ch conn, .chanClose ch, .storeDelete id],
       { q with store := mapDelete q.store id },
       mapSet
         (mapSet chans ch
           { delivered := st.delivered ++ [conn], room := st.room - 1, closed := st.closed })
         ch { delivered := st.delivered ++ [conn], room := st.room - 1, closed := true }) := by
  have hr : ¬ st.room = 0 := by omega
  simp only [ConnectionQueue.AddConnection, h, sendOn, hch, hopen, hr, closeChan,
    mapGet_mapSet_self, Bool.false_eq_true, if_false]

/-- Whatever its outcome, `AddConnection` leaves the counter alone. -/
theorem AddConnection_currentID (q : ConnectionQueue) (chans : Chans) (j : Nat)
    (conn : ConnResult) : (q.AddConnection chans j conn).2.2.1.currentID = q.currentID := by
  unfold ConnectionQueue.AddConnection
  cases mapGet q.store j with
  | none => rfl
  | some ch =>
    simp only []
    cases sendOn chans ch conn with
    | panicked => rfl
    | blocked => rfl
    | returned sent =>
      simp only []
      cases closeChan sent ch <;> rfl

/-- Whatever its outcome, `AddConnection` adds no key. -/
theorem AddConnection_keeps_absent (q : ConnectionQueue) (chans : Chans) (j k : Nat)
    (conn : ConnResult) (h : mapGet q.store k = none) :
    mapGet (q.AddConnection chans j conn).2.2.1.store k = none := by
  unfold ConnectionQueue.AddConnection
  cases mapGet q.store j with
  | none => exact h
  | some ch =>
    simp only []
    cases sendOn chans ch conn with
    | panicked => exact h
    | blocked => exact h
    | returned sent =>
      simp only []
      cases closeChan sent ch with
      | panicked => exact h
      | blocked => exact h
      | returned closed =>
        simp only []
        by_cases hkj : k = j
        · subst hkj
          exact mapGet_mapDelete_self _ _
        · rw [mapGet_mapDelete_ne _ _ _ hkj]
          exact h

/-- When `AddConnection` returns nil the id is no longer stored. -/
theorem AddConnection_success_removes (q : ConnectionQueue) (chans : Chans) (id : Nat)
    (r : ConnResult) (hok : (q.AddConnection chans id r).1 = .returned none) :
    mapGet (q.AddConnection chans id r).2.2.1.store id = none := by
  unfold ConnectionQueue.AddConnection at hok ⊢
  cases h : mapGet q.store id with
  | none => exact h
  | some ch =>
    rw [h] at hok
    simp only [] at hok ⊢
    cases h2 : sendOn chans ch r with
    | panicked => rw [h2] at hok; cases hok
    | blocked => rw [h2] at hok; cases hok
    | returned sent =>
      rw [h2] at hok
      simp only [] at hok ⊢
      cases h3 : closeChan sent ch with
      | panicked => rw [h3] at hok; cases hok
      | blocked => rw [h3] at hok; cases hok
      | returned closed => exact mapGet_mapDelete_self q.store id

/-- Claim C2.  For every queue `q`, whatever the state of the channels, and every id that is
not a key of the table, `AddConnection` returns `ErrConnReqNotFound`, performs no channel
operation and leaves the channels, the table and the counter as they were. -/
theorem AddConnection_absent (q : ConnectionQueue) (chans : Chans) (id : Nat)
    (result : ConnResult) (h : id ∉ mapKeys q.store) :
    (q.AddConnection chans id result).1 = .returned (some ErrConnReqNotFound) ∧
    chanSteps (q.AddConnection chans id result).2.1 = [] ∧
    (q.AddConnection chans id result).2.2.2 = chans ∧
    (q.AddConnection chans id result).2.2.1.store = q.store ∧
    (q.AddConnection chans id result).2.2.1.currentID = q.currentID := by
  have h0 : mapGet q.store id = none := (mapGet_eq_none_iff q.store id).mpr h
  rw [AddConnection_of_none q chans id result h0]
  exact ⟨rfl, rfl, rfl, rfl, rfl⟩

theorem AddConnection_absent_witness :
    7 ∉ mapKeys (ConnectionQueue.mk 2 [(2, 11), (1, 10)]).store ∧
    ((ConnectionQueue.mk 2 [(2, 11), (1, 10)]).AddConnection
        [(10, ⟨[], 1, false⟩), (11, ⟨[], 1, false⟩)] 7 (.conn 5)).1
      = .returned (some ErrConnReqNotFound) ∧
    chanSteps ((ConnectionQueue.mk 2 [(2, 11), (1, 10)]).AddConnection
        [(10, ⟨[], 1, false⟩), (11, ⟨[], 1, false⟩)] 7 (.conn 5)).2.1 = [] ∧
    ((ConnectionQueue.mk 2 [(2, 11), (1, 10)]).AddConnection
        [(10, ⟨[], 1, false⟩), (11, ⟨[], 1, false⟩)] 7 (.conn 5)).2.2.2
      = [(10, ⟨[], 1, false⟩), (11, ⟨[], 1, false⟩)] ∧
    ((ConnectionQueue.mk 2 [(2, 11), (1, 10)]).AddConnection
        [(10, ⟨[], 1, false⟩), (11, ⟨[], 1, false⟩)] 7 (.conn 5)).2.2.1.store
      = [(2, 11), (1, 10)] ∧
    ((ConnectionQueue.mk 2 [(2, 11), (1, 10)]).AddConnection
        [(10, ⟨[], 1, false⟩), (11, ⟨[], 1, false⟩)] 7 (.conn 5)).2.2.1.currentID = 2 :=
  ⟨by decide,
    AddConnection_absent (ConnectionQueue.mk 2 [(2, 11), (1, 10)])
      [(10, ⟨[], 1, false⟩), (11, ⟨[], 1, false⟩)] 7 (.conn 5) (by decide)⟩

/-- Claim C3, amended.  For every queue `q` and every id stored with a channel `ch` that is
open and has room for a value: `AddConnection` returns nil, its channel operations are one
send of `result` on `ch` followed by the close of `ch`, after which `ch` holds `result` as the
last value sent and is closed and every other channel is as before; the id is no longer a key,
every other entry and the counter are unchanged. -/
theorem AddConnection_present (q : ConnectionQueue) (chans : Chans) (id : Nat) (ch : Chan)
    (st : ChanState) (result : ConnResult) (h : mapGet q.store id = some ch)
    (hch : mapGet chans ch = some st) (hopen : st.closed = false) (hroom : 0 < st.room) :
    (q.AddConnection chans id result).1 = .returned none ∧
    chanSteps (q.AddConnection chans id result).2.1 = [.chanSend ch result, .chanClose ch] ∧
    mapGet (q.AddConnection chans id result).2.2.2 ch
      = some { delivered := st.delivered ++ [result], room := st.room - 1, closed := true } ∧
    (∀ c, c ≠ ch → mapGet (q.AddConnection chans id result).2.2.2 c = mapGet chans c) ∧
    id ∉ mapKeys (q.AddConnection chans id result).2.2.1.store ∧
    (∀ j, j ≠ id →
      mapGet (q.AddConnection chans id result).2.2.1.store j = mapGet q.store j) ∧
    (q.AddConnection chans id result).2.2.1.currentID = q.currentID := by
  rw [AddConnection_of_open q chans id ch st result h hch hopen hroom]
  refine ⟨rfl, rfl, ?_, ?_, ?_, ?_, rfl⟩
  · exact mapGet_mapSet_self _ _ _
  · intro c hc
    simp only []
    rw [mapGet_mapSet_ne _ _ _ _ hc, mapGet_mapSet_ne _ _ _ _ hc]
  · rw [← mapGet_eq_none_iff]
    exact mapGet_mapDelete_self _ _
  · intro j hj
    exact mapGet_mapDelete_ne q.store id j hj

theorem AddConnection_present_witness :
    mapGet (ConnectionQueue.mk 2 [(2, 11), (1, 10)]).store 1 = some 10 ∧
    mapGet ([(10, ⟨[], 1, false⟩), (11, ⟨[], 1, false⟩)] : Chans) 10 = some ⟨[], 1, false⟩ ∧
    (⟨[], 1, false⟩ : ChanState).closed = false ∧
    0 < (⟨[], 1, false⟩ : ChanState).room ∧
    (((ConnectionQueue.mk 2 [(2, 11), (1, 10)]).AddConnection
        [(10, ⟨[], 1, false⟩), (11, ⟨[], 1, false⟩)] 1 (.conn 5)).1 = .returned none ∧
     chanSteps ((ConnectionQueue.mk 2 [(2, 11), (1, 10)]).AddConnection
        [(10, ⟨[], 1, false⟩), (11, ⟨[], 1, false⟩)] 1 (.conn 5)).2.1
      = [.chanSend 10 (.conn 5), .chanClose 10] ∧
     mapGet ((ConnectionQueue.mk 2 [(2, 11), (1, 10)]).AddConnection
        [(10, ⟨[], 1, false⟩), (11, ⟨[], 1, false⟩)] 1 (.conn 5)).2.2.2 10
      = some { delivered := ([] : List ConnResult) ++ [.conn 5], room := 1 - 1,
               closed := true } ∧
     (∀ c, c ≠ 10 →
      mapGet ((ConnectionQueue.mk 2 [(2, 11), (1, 10)]).AddConnection
        [(10, ⟨[], 1, false⟩), (11, ⟨[], 1, false⟩)] 1 (.conn 5)).2.2.2 c
        = mapGet ([(10, ⟨[], 1, false⟩), (11, ⟨[], 1, false⟩)] : Chans) c) ∧
     1 ∉ mapKeys ((ConnectionQueue.mk 2 [(2, 11), (1, 10)]).AddConnection
        [(10, ⟨[], 1, false⟩), (11, ⟨[], 1, false⟩)] 1 (.conn 5)).2.2.1.store ∧
     (∀ j, j ≠ 1 →
      mapGet ((ConnectionQueue.mk 2 [(2, 11), (1, 10)]).AddConnection
        [(10, ⟨[], 1, false⟩), (11, ⟨[], 1, false⟩)] 1 (.conn 5)).2.2.1.store j
        = mapGet (ConnectionQueue.mk 2 [(2, 11), (1, 10)]).store j) ∧
     ((ConnectionQueue.mk 2 [(2, 11), (1, 10)]).AddConnection
        [(10, ⟨[], 1, false⟩), (11, ⟨[], 1, false⟩)] 1 (.conn 5)).2.2.1.currentID = 2) :=
  ⟨by decide, by decide, by decide, by decide,
    AddConnection_present (ConnectionQueue.mk 2 [(2, 11), (1, 10)])
      [(10, ⟨[], 1, false⟩), (11, ⟨[], 1, false⟩)] 1 10 ⟨[], 1, false⟩ (.conn 5)
      (by decide) (by decide) (by decide) (by decide)⟩

/-- Claim C3 as stated fails when the channel of the id cannot take the value.  On a new
queue a channel with room for two values is registered twice, under the ids 1 and 2, and id 1
is resolved, which closes the channel.  `AddConnection 2` then finds its id, panics in the
send on the closed channel and does not return nil; the value is not delivered and id 2 stays
in the table.  With a channel on which nobody receives the call blocks in the send instead,
again with the id left in the table. -/
theorem AddConnection_present_not_delivered :
    (NewConnectionQueue.run [(10, ⟨[], 2, false⟩)]
        [.addRequest 10, .addRequest 10, .addConnection 1 (.conn 5)]).1.map Prod.fst
      = [.id 1, .id 2, .err (.returned none)] ∧
    mapGet (NewConnectionQueue.run [(10, ⟨[], 2, false⟩)]
        [.addRequest 10, .addRequest 10, .addConnection 1 (.conn 5)]).2.1.store 2
      = some 10 ∧
    ((NewConnectionQueue.run [(10, ⟨[], 2, false⟩)]
        [.addRequest 10, .addRequest 10, .addConnection 1 (.conn 5)]).2.1.AddConnection
      (NewConnectionQueue.run [(10, ⟨[], 2, false⟩)]
        [.addRequest 10, .addRequest 10, .addConnection 1 (.conn 5)]).2.2 2 (.conn 6)).1
      = .panicked ∧
    mapGet ((NewConnectionQueue.run [(10, ⟨[], 2, false⟩)]
        [.addRequest 10, .addRequest 10, .addConnection 1 (.conn 5)]).2.1.AddConnection
      (NewConnectionQueue.run [(10, ⟨[], 2, false⟩)]
        [.addRequest 10, .addRequest 10, .addConnection 1 (.conn 5)]).2.2 2
        (.conn 6)).2.2.1.store 2
      = some 10 ∧
    mapGet ((NewConnectionQueue.run [(10, ⟨[], 2, false⟩)]
        [.addRequest 10, .addRequest 10, .addConnection 1 (.conn 5)]).2.1.AddConnection
      (NewConnectionQueue.run [(10, ⟨[], 2, false⟩)]
        [.addRequest 10, .addRequest 10, .addConnection 1 (.conn 5)]).2.2 2
        (.conn 6)).2.2.2 10
      = some ⟨[.conn 5], 1, true⟩ ∧
    ((NewConnectionQueue.AddRequest 10).2.2.AddConnection [(10, ⟨[], 0, false⟩)] 1
        (.conn 5)).1 = .blocked ∧
    mapGet ((NewConnectionQueue.AddRequest 10).2.2.AddConnection [(10, ⟨[], 0, false⟩)] 1
        (.conn 5)).2.2.1.store 1 = some 10 := by
  decide

/-! ## Runs of calls on a `ConnectionQueue` -/

theorem run_append (q : ConnectionQueue) (chans : Chans) (a b : List Call) :
    q.run chans (a ++ b)
      = ((q.run chans a).1 ++ ((q.run chans a).2.1.run (q.run chans a).2.2 b).1,
         ((q.run chans a).2.1.run (q.run chans a).2.2 b).2) := by
  induction a generalizing q chans with
  | nil => simp [ConnectionQueue.run]
  | cons c rest ih => simp [ConnectionQueue.run, ih]

/-- An id that is absent stays absent along a run in which `AddRequest` never returns it. -/
theorem run_keeps_absent (calls : List Call) (q : ConnectionQueue) (chans : Chans) (id : Nat)
    (habs : mapGet q.store id = none) (hfresh : id ∉ issuedIds (q.run chans calls).1) :
    mapGet (q.run chans calls).2.1.store id = none := by
  induction calls generalizing q chans with
  | nil => simpa [ConnectionQueue.run] using habs
  | cons c rest ih =>
    cases c with
    | addRequest ch =>
      simp only [ConnectionQueue.run, ConnectionQueue.call, ConnectionQueue.AddRequest,
        issuedIds, List.mem_cons, not_or] at hfresh ⊢
      apply ih
      · simp only []
        rw [mapGet_mapSet_ne _ _ _ _ hfresh.1]
        exact habs
      · exact hfresh.2
    | addConnection j conn =>
      simp only [ConnectionQueue.run, ConnectionQueue.call, issuedIds] at hfresh ⊢
      exact ih _ _ (AddConnection_keeps_absent q chans j id conn habs) hfresh

theorem run_replicate_currentID (ch : Chan) (n : Nat) (q : ConnectionQueue) (chans : Chans)
    (hq : q.currentID < 2 ^ 64) :
    (q.run chans (List.replicate n (.addRequest ch))).2.1.currentID
      = (q.currentID + n) % 2 ^ 64 := by
  induction n generalizing q with
  | zero =>
    simp only [List.replicate, ConnectionQueue.run, Nat.add_zero]
    exact (Nat.mod_eq_of_lt hq).symm
  | succ n ih =>
    rw [List.replicate_succ]
    simp only [ConnectionQueue.run, ConnectionQueue.call, ConnectionQueue.AddRequest]
    rw [ih _ (Nat.mod_lt _ (by positivity))]
    simp only []
    rw [Nat.mod_add_mod]
    congr 1
    omega

/-- Calls of `AddRequest` do not touch the channels. -/
theorem run_replicate_chans (ch : Chan) (n : Nat) (q : ConnectionQueue) (chans : Chans) :
    (q.run chans (List.replicate n (.addRequest ch))).2.2 = chans := by
  induction n generalizing q with
  | zero => rfl
  | succ n ih =>
    rw [List.replicate_succ]
    simp only [ConnectionQueue.run, ConnectionQueue.call]
    exact ih _

/-- Below the wrap of the counter a run adds the number of its `AddRequest` calls to the
counter, issues the consecutive ids after the counter, and keeps every key at or below the
counter. -/
theorem run_invariant (calls : List Call) (q : ConnectionQueue) (chans : Chans)
    (hb : q.currentID + countAddRequest calls < 2 ^ 64)
    (hkeys : ∀ k, q.currentID < k → mapGet q.store k = none) :
    (q.run chans calls).2.1.currentID = q.currentID + countAddRequest calls ∧
    (∀ k, q.currentID + countAddRequest calls < k →
      mapGet (q.run chans calls).2.1.store k = none) ∧
    issuedIds (q.run chans calls).1
      = List.range' (q.currentID + 1) (countAddRequest calls) := by
  induction calls generalizing q chans with
  | nil => simpa [ConnectionQueue.run, countAddRequest, issuedIds] using hkeys
  | cons c rest ih =>
    cases c with
    | addRequest ch =>
      simp only [countAddRequest] at hb ⊢
      have hlt : q.currentID + 1 < 2 ^ 64 := by omega
      have hid : (q.currentID + 1) % 2 ^ 64 = q.currentID + 1 := Nat.mod_eq_of_lt hlt
      have hq : (q.AddRequest ch) = (q.currentID + 1,
          [.lock .queue, .counterIncr (q.currentID + 1),
            .storeInsert (q.currentID + 1) ch, .unlock .queue],
          { currentID := q.currentID + 1, store := mapSet q.store (q.currentID + 1) ch }) := by
        simp only [ConnectionQueue.AddRequest, hid]
      have hkeys2 : ∀ k, q.currentID + 1 < k →
          mapGet (mapSet q.store (q.currentID + 1) ch) k = none := by
        intro k hk
        rw [mapGet_mapSet_ne _ _ _ _ (by omega)]
        exact hkeys k (by omega)
      have h := ih (ConnectionQueue.mk (q.currentID + 1) (mapSet q.store (q.currentID + 1) ch))
        chans (by simp only []; omega) hkeys2
      simp only [ConnectionQueue.run, ConnectionQueue.call, hq, issuedIds]
      simp only [] at h
      refine ⟨?_, ?_, ?_⟩
      · rw [h.1]; omega
      · intro k hk
        exact h.2.1 k (by omega)
      · rw [h.2.2, List.range'_succ]
    | addConnection j conn =>
      simp only [countAddRequest] at hb ⊢
      have hcur := AddConnection_currentID q chans j conn
      have h := ih (q.AddConnection chans j conn).2.2.1 (q.AddConnection chans j conn).2.2.2
        (by rw [hcur]; exact hb)
        (by
          intro k hk
          rw [hcur] at hk
          exact AddConnection_keeps_absent q chans j k conn (hkeys k hk))
      rw [hcur] at h
      simpa only [ConnectionQueue.run, ConnectionQueue.call, issuedIds] using h

/-- On a new queue, as long as the counter has not wrapped, no id is issued twice. -/
theorem issuedIds_nodup_below_wrap (calls : List Call) (chans : Chans)
    (h : countAddRequest calls < 2 ^ 64) :
    (issuedIds (NewConnectionQueue.run chans calls).1).Nodup := by
  have hinv := run_invariant calls NewConnectionQueue chans
    (by simp only [NewConnectionQueue]; omega) (by intro k _; rfl)
  rw [hinv.2.2]
  exact List.nodup_range' _ _

/-- After `n + 1` calls of `AddRequest` with the channel `ch` the id last issued holds `ch`. -/
theorem run_replicate_last (ch : Chan) (n : Nat) (q : ConnectionQueue) (chans : Chans)
    (hq : q.currentID < 2 ^ 64) :
    mapGet (q.run chans (List.replicate (n + 1) (.addRequest ch))).2.1.store
      ((q.currentID + n + 1) % 2 ^ 64) = some ch := by
  rw [List.replicate_succ', run_append]
  simp only [ConnectionQueue.run, ConnectionQueue.call, ConnectionQueue.AddRequest]
  rw [run_replicate_currentID ch n q chans hq, Nat.mod_add_mod]
  exact mapGet_mapSet_self _ _ _

theorem AddConnection_fst_of_open (q : ConnectionQueue) (chans : Chans) (id : Nat) (ch : Chan)
    (st : ChanState) (conn : ConnResult) (h : mapGet q.store id = some ch)
    (hch : mapGet chans ch = some st) (hopen : st.closed = false) (hroom : 0 < st.room) :
    (q.AddConnection chans id conn).1 = .returned none := by
  rw [AddConnection_of_open q chans id ch st conn h hch hopen hroom]

theorem AddConnection_chanSteps_of_open (q : ConnectionQueue) (chans : Chans) (id : Nat)
    (ch : Chan) (st : ChanState) (conn : ConnResult) (h : mapGet q.store id = some ch)
    (hch : mapGet chans ch = some st) (hopen : st.closed = false) (hroom : 0 < st.room) :
    chanSteps (q.AddConnection chans id conn).2.1 = [.chanSend ch conn, .chanClose ch] := by
  rw [AddConnection_of_open q chans id ch st conn h hch hopen hroom]
  rfl

theorem AddRequest_fst (q : ConnectionQueue) (connChan : Chan) :
    (q.AddRequest connChan).1 = (q.currentID + 1) % 2 ^ 64 := rfl

theorem countAddRequest_concat (calls : List Call) (connChan : Chan) :
    countAddRequest (calls ++ [.addRequest connChan]) = countAddRequest calls + 1 := by
  induction calls with
  | nil => rfl
  | cons c rest ih =>
    cases c with
    | addRequest ch =>
      show countAddRequest (rest ++ [.addRequest connChan]) + 1 = countAddRequest rest + 1 + 1
      rw [ih]
    | addConnection j conn => exact ih

/-- On a new queue, as long as the counter has not wrapped, an id that `AddConnection` has
resolved is not found again, whatever calls come in between. -/
theorem resolved_once_below_wrap (before later : List Call) (chans : Chans) (id : Nat)
    (r r2 : ConnResult)
    (hb : countAddRequest before + countAddRequest later < 2 ^ 64)
    (hok : ((NewConnectionQueue.run chans before).2.1.AddConnection
      (NewConnectionQueue.run chans before).2.2 id r).1 = .returned none) :
    ((((NewConnectionQueue.run chans before).2.1.AddConnection
        (NewConnectionQueue.run chans before).2.2 id r).2.2.1.run
      ((NewConnectionQueue.run chans before).2.1.AddConnection
        (NewConnectionQueue.run chans before).2.2 id r).2.2.2 later).2.1.AddConnection
      (((NewConnectionQueue.run chans before).2.1.AddConnection
        (NewConnectionQueue.run chans before).2.2 id r).2.2.1.run
      ((NewConnectionQueue.run chans before).2.1.AddConnection
        (NewConnectionQueue.run chans before).2.2 id r).2.2.2 later).2.2
      id r2).1 = .returned (some ErrConnReqNotFound) := by
  have hinv := run_invariant before NewConnectionQueue chans
    (by simp only [NewConnectionQueue]; omega) (by intro k _; rfl)
  generalize NewConnectionQueue.run chans before = st at hinv hok ⊢
  obtain ⟨replies, q, ch1⟩ := st
  simp only [NewConnectionQueue, Nat.zero_add] at hinv
  simp only [] at hok ⊢
  have hcur := AddConnection_currentID q ch1 id r
  have hle : id ≤ countAddRequest before := by
    by_contra hgt
    have hnone := hinv.2.1 id (by omega)
    rw [AddConnection_of_none _ _ id r hnone] at hok
    cases hok
  have hinv2 := run_invariant later (q.AddConnection ch1 id r).2.2.1
    (q.AddConnection ch1 id r).2.2.2
    (by rw [hcur, hinv.1]; exact hb)
    (by
      intro k hk
      rw [hcur, hinv.1] at hk
      exact AddConnection_keeps_absent _ _ id k r (hinv.2.1 k hk))
  rw [hcur, hinv.1] at hinv2
  have hfresh : id ∉ issuedIds
      ((q.AddConnection ch1 id r).2.2.1.run (q.AddConnection ch1 id r).2.2.2 later).1 := by
    rw [hinv2.2.2]
    intro hmem
    have := (List.mem_range'_1.mp hmem).1
    omega
  have habs := run_keeps_absent later _ _ id (AddConnection_success_removes _ _ id r hok) hfresh
  rw [AddConnection_of_none _ _ id r2 habs]

/-! ## Claims on `ConnectionQueue` -/

/-- Claim C1, amended.  In every queue, whatever the state of the channels, once
`AddConnection id r` has returned nil, and after any further calls among which no `AddRequest`
returns `id` again, `AddConnection id r2` returns `ErrConnReqNotFound` and performs no channel
operation. -/
theorem AddConnection_at_most_once (q : ConnectionQueue) (chans : Chans) (id : Nat)
    (r r2 : ConnResult) (later : List Call)
    (hok : (q.AddConnection chans id r).1 = .returned none)
    (hfresh : id ∉ issuedIds
      ((q.AddConnection chans id r).2.2.1.run (q.AddConnection chans id r).2.2.2 later).1) :
    ((((q.AddConnection chans id r).2.2.1.run
        (q.AddConnection chans id r).2.2.2 later).2.1).AddConnection
      ((q.AddConnection chans id r).2.2.1.run
        (q.AddConnection chans id r).2.2.2 later).2.2 id r2).1
      = .returned (some ErrConnReqNotFound) ∧
    chanSteps ((((q.AddConnection chans id r).2.2.1.run
        (q.AddConnection chans id r).2.2.2 later).2.1).AddConnection
      ((q.AddConnection chans id r).2.2.1.run
        (q.AddConnection chans id r).2.2.2 later).2.2 id r2).2.1 = [] ∧
    ((((q.AddConnection chans id r).2.2.1.run
        (q.AddConnection chans id r).2.2.2 later).2.1).AddConnection
      ((q.AddConnection chans id r).2.2.1.run
        (q.AddConnection chans id r).2.2.2 later).2.2 id r2).2.2.2
      = ((q.AddConnection chans id r).2.2.1.run
        (q.AddConnection chans id r).2.2.2 later).2.2 := by
  have habs := run_keeps_absent later (q.AddConnection chans id r).2.2.1
    (q.AddConnection chans id r).2.2.2 id
    (AddConnection_success_removes q chans id r hok) hfresh
  rw [AddConnection_of_none _ _ id r2 habs]
  exact ⟨rfl, rfl, rfl⟩

theorem AddConnection_at_most_once_witness :
    ((ConnectionQueue.mk 2 [(2, 11), (1, 10)]).AddConnection
      [(10, ⟨[], 1, false⟩), (11, ⟨[], 1, false⟩)] 1 (.conn 5)).1 = .returned none ∧
    1 ∉ issuedIds
      ((((ConnectionQueue.mk 2 [(2, 11), (1, 10)]).AddConnection
          [(10, ⟨[], 1, false⟩), (11, ⟨[], 1, false⟩)] 1 (.conn 5)).2.2.1.run
        ((ConnectionQueue.mk 2 [(2, 11), (1, 10)]).AddConnection
          [(10, ⟨[], 1, false⟩), (11, ⟨[], 1, false⟩)] 1 (.conn 5)).2.2.2
        [.addRequest 12, .addConnection 2 (.conn 7), .addRequest 13]).1) ∧
    ((((((ConnectionQueue.mk 2 [(2, 11), (1, 10)]).AddConnection
          [(10, ⟨[], 1, false⟩), (11, ⟨[], 1, false⟩)] 1 (.conn 5)).2.2.1.run
        ((ConnectionQueue.mk 2 [(2, 11), (1, 10)]).AddConnection
          [(10, ⟨[], 1, false⟩), (11, ⟨[], 1, false⟩)] 1 (.conn 5)).2.2.2
        [.addRequest 12, .addConnection 2 (.conn 7), .addRequest 13]).2.1).AddConnection
      (((ConnectionQueue.mk 2 [(2, 11), (1, 10)]).AddConnection
          [(10, ⟨[], 1, false⟩), (11, ⟨[], 1, false⟩)] 1 (.conn 5)).2.2.1.run
        ((ConnectionQueue.mk 2 [(2, 11), (1, 10)]).AddConnection
          [(10, ⟨[], 1, false⟩), (11, ⟨[], 1, false⟩)] 1 (.conn 5)).2.2.2
        [.addRequest 12, .addConnection 2 (.conn 7), .addRequest 13]).2.2 1 (.conn 6)).1
      = .returned (some ErrConnReqNotFound) ∧
     chanSteps (((((ConnectionQueue.mk 2 [(2, 11), (1, 10)]).AddConnection
          [(10, ⟨[], 1, false⟩), (11, ⟨[], 1, false⟩)] 1 (.conn 5)).2.2.1.run
        ((ConnectionQueue.mk 2 [(2, 11), (1, 10)]).AddConnection
          [(10, ⟨[], 1, false⟩), (11, ⟨[], 1, false⟩)] 1 (.conn 5)).2.2.2
        [.addRequest 12, .addConnection 2 (.conn 7), .addRequest 13]).2.1).AddConnection
      (((ConnectionQueue.mk 2 [(2, 11), (1, 10)]).AddConnection
          [(10, ⟨[], 1, false⟩), (11, ⟨[], 1, false⟩)] 1 (.conn 5)).2.2.1.run
        ((ConnectionQueue.mk 2 [(2, 11), (1, 10)]).AddConnection
          [(10, ⟨[], 1, false⟩), (11, ⟨[], 1, false⟩)] 1 (.conn 5)).2.2.2
        [.addRequest 12, .addConnection 2 (.conn 7), .addRequest 13]).2.2 1 (.conn 6)).2.1
      = [] ∧
     (((((ConnectionQueue.mk 2 [(2, 11), (1, 10)]).AddConnection
          [(10, ⟨[], 1, false⟩), (11, ⟨[], 1, false⟩)] 1 (.conn 5)).2.2.1.run
        ((ConnectionQueue.mk 2 [(2, 11), (1, 10)]).AddConnection
          [(10, ⟨[], 1, false⟩), (11, ⟨[], 1, false⟩)] 1 (.conn 5)).2.2.2
        [.addRequest 12, .addConnection 2 (.conn 7), .addRequest 13]).2.1).AddConnection
      (((ConnectionQueue.mk 2 [(2, 11), (1, 10)]).AddConnection
          [(10, ⟨[], 1, false⟩), (11, ⟨[], 1, false⟩)] 1 (.conn 5)).2.2.1.run
        ((ConnectionQueue.mk 2 [(2, 11), (1, 10)]).AddConnection
          [(10, ⟨[], 1, false⟩), (11, ⟨[], 1, false⟩)] 1 (.conn 5)).2.2.2
        [.addRequest 12, .addConnection 2 (.conn 7), .addRequest 13]).2.2 1 (.conn 6)).2.2.2
      = (((ConnectionQueue.mk 2 [(2, 11), (1, 10)]).AddConnection
          [(10, ⟨[], 1, false⟩), (11, ⟨[], 1, false⟩)] 1 (.conn 5)).2.2.1.run
        ((ConnectionQueue.mk 2 [(2, 11), (1, 10)]).AddConnection
          [(10, ⟨[], 1, false⟩), (11, ⟨[], 1, false⟩)] 1 (.conn 5)).2.2.2
        [.addRequest 12, .addConnection 2 (.conn 7), .addRequest 13]).2.2) :=
  ⟨by decide, by decide,
    AddConnection_at_most_once (ConnectionQueue.mk 2 [(2, 11), (1, 10)])
      [(10, ⟨[], 1, false⟩), (11, ⟨[], 1, false⟩)] 1 (.conn 5) (.conn 6)
      [.addRequest 12, .addConnection 2 (.conn 7), .addRequest 13] (by decide) (by decide)⟩

/-- Claim C1 as stated fails once the counter has wrapped.  On a new queue, with two open
channels 10 and 20 that each have room for a value: `AddRequest` returns 1, `AddConnection 1`
returns nil, `2 ^ 64` further `AddRequest` calls bring the counter back to 1, and the later
`AddConnection 1` returns nil again, not `ErrConnReqNotFound`, and sends on the channel
stored last. -/
theorem AddConnection_again_after_wrap :
    (NewConnectionQueue.run [(10, ⟨[], 1, false⟩), (20, ⟨[], 1, false⟩)]
        [.addRequest 10, .addConnection 1 (.conn 5)]).1.map Prod.fst
      = [.id 1, .err (.returned none)] ∧
    (((NewConnectionQueue.run [(10, ⟨[], 1, false⟩), (20, ⟨[], 1, false⟩)]
          [.addRequest 10, .addConnection 1 (.conn 5)]).2.1.run
        (NewConnectionQueue.run [(10, ⟨[], 1, false⟩), (20, ⟨[], 1, false⟩)]
          [.addRequest 10, .addConnection 1 (.conn 5)]).2.2
        (List.replicate (2 ^ 64) (.addRequest 20))).2.1.AddConnection
      ((NewConnectionQueue.run [(10, ⟨[], 1, false⟩), (20, ⟨[], 1, false⟩)]
          [.addRequest 10, .addConnection 1 (.conn 5)]).2.1.run
        (NewConnectionQueue.run [(10, ⟨[], 1, false⟩), (20, ⟨[], 1, false⟩)]
          [.addRequest 10, .addConnection 1 (.conn 5)]).2.2
        (List.replicate (2 ^ 64) (.addRequest 20))).2.2 1 (.conn 6)).1 = .returned none ∧
    (((NewConnectionQueue.run [(10, ⟨[], 1, false⟩), (20, ⟨[], 1, false⟩)]
          [.addRequest 10, .addConnection 1 (.conn 5)]).2.1.run
        (NewConnectionQueue.run [(10, ⟨[], 1, false⟩), (20, ⟨[], 1, false⟩)]
          [.addRequest 10, .addConnection 1 (.conn 5)]).2.2
        (List.replicate (2 ^ 64) (.addRequest 20))).2.1.AddConnection
      ((NewConnectionQueue.run [(10, ⟨[], 1, false⟩), (20, ⟨[], 1, false⟩)]
          [.addRequest 10, .addConnection 1 (.conn 5)]).2.1.run
        (NewConnectionQueue.run [(10, ⟨[], 1, false⟩), (20, ⟨[], 1, false⟩)]
          [.addRequest 10, .addConnection 1 (.conn 5)]).2.2
        (List.replicate (2 ^ 64) (.addRequest 20))).2.2 1 (.conn 6)).1
      ≠ .returned (some ErrConnReqNotFound) ∧
    chanSteps (((NewConnectionQueue.run [(10, ⟨[], 1, false⟩), (20, ⟨[], 1, false⟩)]
          [.addRequest 10, .addConnection 1 (.conn 5)]).2.1.run
        (NewConnectionQueue.run [(10, ⟨[], 1, false⟩), (20, ⟨[], 1, false⟩)]
          [.addRequest 10, .addConnection 1 (.conn 5)]).2.2
        (List.replicate (2 ^ 64) (.addRequest 20))).2.1.AddConnection
      ((NewConnectionQueue.run [(10, ⟨[], 1, false⟩), (20, ⟨[], 1, false⟩)]
          [.addRequest 10, .addConnection 1 (.conn 5)]).2.1.run
        (NewConnectionQueue.run [(10, ⟨[], 1, false⟩), (20, ⟨[], 1, false⟩)]
          [.addRequest 10, .addConnection 1 (.conn 5)]).2.2
        (List.replicate (2 ^ 64) (.addRequest 20))).2.2 1 (.conn 6)).2.1
      = [.chanSend 20 (.conn 6), .chanClose 20] := by
  have hq : (NewConnectionQueue.run [(10, ⟨[], 1, false⟩), (20, ⟨[], 1, false⟩)]
      [.addRequest 10, .addConnection 1 (.conn 5)]).2
      = (ConnectionQueue.mk 1 [], [(10, ⟨[.conn 5], 0, true⟩), (20, ⟨[], 1, false⟩)]) := by
    decide
  have hq1 := congrArg Prod.fst hq
  have hq2 := congrArg Prod.snd hq
  simp only [] at hq1 hq2
  rw [hq1, hq2]
  have hlast := run_replicate_last 20 (2 ^ 64 - 1) (ConnectionQueue.mk 1 [])
    [(10, ⟨[.conn 5], 0, true⟩), (20, ⟨[], 1, false⟩)] (by norm_num)
  have e1 : 2 ^ 64 - 1 + 1 = 2 ^ 64 := by norm_num
  have e2 : ((ConnectionQueue.mk 1 []).currentID + (2 ^ 64 - 1) + 1) % 2 ^ 64 = 1 := by
    norm_num
  rw [e1, e2] at hlast
  rw [run_replicate_chans]
  have hch : mapGet ([(10, ⟨[.conn 5], 0, true⟩), (20, ⟨[], 1, false⟩)] : Chans) 20
      = some ⟨[], 1, false⟩ := by decide
  have h1 := AddConnection_fst_of_open _ _ 1 20 ⟨[], 1, false⟩ (.conn 6) hlast hch rfl
    (by decide)
  refine ⟨by decide, h1, ?_, ?_⟩
  · rw [h1]
    exact fun c => by cases c
  · exact AddConnection_chanSteps_of_open _ _ 1 20 ⟨[], 1, false⟩ (.conn 6) hlast hch rfl
      (by decide)

/-- Claim C4, amended.  On a new queue, whatever the state of the channels and after any
calls, as long as the number `k` of the `AddRequest` call stays below `2 ^ 64`: the `k`-th
call of `AddRequest` returns `k`, finds no entry under `k`, stores the channel supplied under
`k` and leaves every other entry as it was; the ids issued by the first `k` calls are
`1, 2, ..., k`, strictly increasing. -/
theorem AddRequest_kth_id (calls : List Call) (chans : Chans) (connChan : Chan)
    (hk : countAddRequest calls + 1 < 2 ^ 64) :
    ((NewConnectionQueue.run chans calls).2.1.AddRequest connChan).1
      = countAddRequest calls + 1 ∧
    mapGet (NewConnectionQueue.run chans calls).2.1.store (countAddRequest calls + 1) = none ∧
    mapGet ((NewConnectionQueue.run chans calls).2.1.AddRequest connChan).2.2.store
      (countAddRequest calls + 1) = some connChan ∧
    (∀ j, j ≠ countAddRequest calls + 1 →
      mapGet ((NewConnectionQueue.run chans calls).2.1.AddRequest connChan).2.2.store j
        = mapGet (NewConnectionQueue.run chans calls).2.1.store j) ∧
    issuedIds (NewConnectionQueue.run chans (calls ++ [.addRequest connChan])).1
      = List.range' 1 (countAddRequest calls + 1) ∧
    (issuedIds (NewConnectionQueue.run chans (calls ++ [.addRequest connChan])).1).Pairwise
      (fun a b => a < b) := by
  have hinv := run_invariant calls NewConnectionQueue chans
    (by simp only [NewConnectionQueue]; omega) (by intro k _; rfl)
  have hinv2 := run_invariant (calls ++ [.addRequest connChan]) NewConnectionQueue chans
    (by rw [countAddRequest_concat]; simp only [NewConnectionQueue]; omega) (by intro k _; rfl)
  rw [countAddRequest_concat] at hinv2
  simp only [NewConnectionQueue, Nat.zero_add] at hinv hinv2
  have hid : ((NewConnectionQueue.run chans calls).2.1.currentID + 1) % 2 ^ 64
      = countAddRequest calls + 1 := by
    simp only [NewConnectionQueue]
    rw [hinv.1]
    exact Nat.mod_eq_of_lt hk
  refine ⟨?_, ?_, ?_, ?_, ?_, ?_⟩
  · simp only [ConnectionQueue.AddRequest, hid]
  · exact hinv.2.1 _ (Nat.lt_succ_self _)
  · simp only [ConnectionQueue.AddRequest, hid]
    exact mapGet_mapSet_self _ _ _
  · intro j hj
    simp only [ConnectionQueue.AddRequest, hid]
    exact mapGet_mapSet_ne _ _ _ _ hj
  · exact hinv2.2.2
  · simp only [NewConnectionQueue]
    rw [hinv2.2.2]
    exact List.pairwise_lt_range' 1 (countAddRequest calls + 1)

theorem AddRequest_kth_id_witness :
    countAddRequest [.addRequest 10, .addConnection 1 (.conn 5), .addRequest 11] + 1 < 2 ^ 64 ∧
    (((NewConnectionQueue.run [(10, ⟨[], 1, false⟩)]
        [.addRequest 10, .addConnection 1 (.conn 5), .addRequest 11]).2.1.AddRequest 12).1
      = countAddRequest [.addRequest 10, .addConnection 1 (.conn 5), .addRequest 11] + 1 ∧
    mapGet (NewConnectionQueue.run [(10, ⟨[], 1, false⟩)]
        [.addRequest 10, .addConnection 1 (.conn 5), .addRequest 11]).2.1.store
      (countAddRequest [.addRequest 10, .addConnection 1 (.conn 5), .addRequest 11] + 1)
      = none ∧
    mapGet ((NewConnectionQueue.run [(10, ⟨[], 1, false⟩)]
        [.addRequest 10, .addConnection 1 (.conn 5),
          .addRequest 11]).2.1.AddRequest 12).2.2.store
      (countAddRequest [.addRequest 10, .addConnection 1 (.conn 5), .addRequest 11] + 1)
      = some 12 ∧
    (∀ j, j ≠ countAddRequest [.addRequest 10, .addConnection 1 (.conn 5), .addRequest 11] + 1 →
      mapGet ((NewConnectionQueue.run [(10, ⟨[], 1, false⟩)]
          [.addRequest 10, .addConnection 1 (.conn 5), .addRequest 11]).2.1.AddRequest
            12).2.2.store j
        = mapGet (NewConnectionQueue.run [(10, ⟨[], 1, false⟩)]
          [.addRequest 10, .addConnection 1 (.conn 5), .addRequest 11]).2.1.store j) ∧
    issuedIds (NewConnectionQueue.run [(10, ⟨[], 1, false⟩)]
        ([.addRequest 10, .addConnection 1 (.conn 5), .addRequest 11] ++ [.addRequest 12])).1
      = List.range' 1
        (countAddRequest [.addRequest 10, .addConnection 1 (.conn 5), .addRequest 11] + 1) ∧
    (issuedIds (NewConnectionQueue.run [(10, ⟨[], 1, false⟩)]
        ([.addRequest 10, .addConnection 1 (.conn 5), .addRequest 11]
          ++ [.addRequest 12])).1).Pairwise (fun a b => a < b)) :=
  ⟨by decide,
    AddRequest_kth_id [.addRequest 10, .addConnection 1 (.conn 5), .addRequest 11]
      [(10, ⟨[], 1, false⟩)] 12 (by decide)⟩

/-- Claim C4 as stated fails at the wrap of the counter.  On a new queue the call of
`AddRequest` number `2 ^ 64` returns 0: not its number, and not above the id 1 that the first
call returned. -/
theorem AddRequest_wraps_to_zero :
    (NewConnectionQueue.AddRequest 10).1 = 1 ∧
    ((NewConnectionQueue.run [] (List.replicate (2 ^ 64 - 1) (.addRequest 10))).2.1.AddRequest
      10).1 = 0 ∧
    ((NewConnectionQueue.run [] (List.replicate (2 ^ 64 - 1) (.addRequest 10))).2.1.AddRequest
      10).1 ≠ 2 ^ 64 := by
  have hcur := run_replicate_currentID 10 (2 ^ 64 - 1) NewConnectionQueue []
    (by simp only [NewConnectionQueue]; norm_num)
  have hid : ((NewConnectionQueue.run [] (List.replicate (2 ^ 64 - 1)
      (.addRequest 10))).2.1.AddRequest 10).1 = 0 := by
    rw [AddRequest_fst, hcur]
    simp only [NewConnectionQueue]
    norm_num
  refine ⟨by decide, hid, ?_⟩
  rw [hid]
  norm_num

/-! ## The service registry -/

theorem mapKeys_mapDelete_sublist {κ ν : Type} [DecidableEq κ] (m : List (κ × ν)) (k : κ) :
    List.Sublist (mapKeys (mapDelete m k)) (mapKeys m) :=
  List.Sublist.map _ (List.filter_sublist m)

theorem mapKeys_mapSet_nodup {κ ν : Type} [DecidableEq κ] (m : List (κ × ν)) (k : κ) (v : ν)
    (h : (mapKeys m).Nodup) : (mapKeys (mapSet m k v)).Nodup := by
  have hk : k ∉ mapKeys (mapDelete m k) :=
    (mapGet_eq_none_iff _ k).mp (mapGet_mapDelete_self m k)
  have hd : (mapKeys (mapDelete m k)).Nodup := h.sublist (mapKeys_mapDelete_sublist m k)
  exact List.nodup_cons.mpr ⟨hk, hd⟩

theorem registerAll_keys_nodup (regs : List Registration) (s : ExchangeService)
    (h : (mapKeys s.srvs).Nodup) : (mapKeys (registerAll s regs).srvs).Nodup := by
  induction regs generalizing s with
  | nil => exact h
  | cons r rest ih =>
    exact ih _ (mapKeys_mapSet_nodup s.srvs r.req.ServiceName _ h)

theorem registerAll_lookup (regs : List Registration) (s : ExchangeService) (name : String) :
    mapGet (registerAll s regs).srvs name =
      (match lastRegistered name regs with
       | some srv => some srv
       | none => mapGet s.srvs name) := by
  induction regs generalizing s with
  | nil => rfl
  | cons r rest ih =>
    simp only [registerAll, lastRegistered]
    rw [ih]
    cases hl : lastRegistered name rest with
    | some srv => rfl
    | none =>
      simp only [ExchangeService.RegisterService]
      by_cases hn : r.req.ServiceName = name
      · simp only [hn, if_true]
        rw [← hn]
        exact mapGet_mapSet_self _ _ _
      · simp only [hn, if_false]
        exact mapGet_mapSet_ne _ _ _ _ (fun c => hn c.symm)

theorem lastRegistered_eq_none_iff (regs : List Registration) (name : String) :
    lastRegistered name regs = none ↔ ∀ r ∈ regs, r.req.ServiceName ≠ name := by
  induction regs with
  | nil => simp [lastRegistered]
  | cons r rest ih =>
    simp only [lastRegistered, List.mem_cons, forall_eq_or_imp]
    cases hl : lastRegistered name rest with
    | some srv =>
      rw [hl] at ih
      constructor
      · intro c
        exact absurd c (by simp)
      · intro c
        exact absurd (ih.mpr c.2) (by simp)
    | none =>
      rw [hl] at ih
      by_cases hn : r.req.ServiceName = name
      · simp [hn]
      · simpa [hn] using ih.mp rfl

theorem GetService_of_lookup (s : ExchangeService) (name : String) :
    (s.GetService name).1 =
      (match mapGet s.srvs name with
       | some srv => (some srv, none)
       | none => (none, some (.errorf "service not found"))) ∧
    (s.GetService name).2.2 = s := by
  unfold ExchangeService.GetService
  cases mapGet s.srvs name <;> exact ⟨rfl, rfl⟩

/-- Claim C7.  After any sequence of registrations on the empty registry, `GetService name`
returns the service made by the most recent registration with that exact name and a nil
error; it returns no service and the error "service not found" exactly when no registration
used that name; it never changes the registry, which has at most one entry per name. -/
theorem GetService_last_write_wins (regs : List Registration) (name : String) :
    ((registerAll newExchangeService regs).GetService name).1 =
      (match lastRegistered name regs with
       | some srv => (some srv, none)
       | none => (none, some (.errorf "service not found"))) ∧
    (((registerAll newExchangeService regs).GetService name).1
        = (none, some (.errorf "service not found")) ↔
      ∀ r ∈ regs, r.req.ServiceName ≠ name) ∧
    ((registerAll newExchangeService regs).GetService name).2.2
      = registerAll newExchangeService regs ∧
    (mapKeys (registerAll newExchangeService regs).srvs).Nodup := by
  have hget := GetService_of_lookup (registerAll newExchangeService regs) name
  have hl := registerAll_lookup regs newExchangeService name
  have hres : ((registerAll newExchangeService regs).GetService name).1 =
      (match lastRegistered name regs with
       | some srv => (some srv, none)
       | none => (none, some (.errorf "service not found"))) := by
    rw [hget.1, hl]
    cases lastRegistered name regs <;> rfl
  refine ⟨hres, ?_, hget.2, registerAll_keys_nodup regs newExchangeService List.nodup_nil⟩
  rw [hres, ← lastRegistered_eq_none_iff]
  cases lastRegistered name regs with
  | none => simp
  | some srv => simp

/-! ## The forwarder loop of `RegisterService` -/

/-- While the loop waits in the `select`, further events continue it. -/
theorem forwardLoop_append (name : String) (pre rest : List LoopEvent)
    (hrun : (forwardLoop name pre).2 = none) :
    forwardLoop name (pre ++ rest)
      = ((forwardLoop name pre).1 ++ (forwardLoop name rest).1, (forwardLoop name rest).2) := by
  induction pre with
  | nil => simp [forwardLoop]
  | cons ev more ih =>
    cases ev with
    | ctxDone => simp [forwardLoop] at hrun
    | chanClosed => simp [forwardLoop] at hrun
    | command cmd waited resp sendErr =>
      by_cases hn : cmd.Name = name
      · cases sendErr with
        | some e => simp [forwardLoop, hn] at hrun
        | none =>
          simp only [forwardLoop, hn, ne_eq, not_true_eq_false, if_false] at hrun
          have h := ih hrun
          simp only [List.cons_append, forwardLoop, hn, ne_eq, not_true_eq_false, if_false]
          rw [show more.append rest = more ++ rest from rfl, h]
      · cases resp with
        | completes =>
          simp only [forwardLoop, ne_eq, hn, not_false_eq_true, if_true] at hrun
          have h := ih hrun
          simp only [List.cons_append, forwardLoop, ne_eq, hn, not_false_eq_true, if_true]
          rw [show more.append rest = more ++ rest from rfl, h]
        | blocks => simp [forwardLoop, hn] at hrun
        | panics => simp [forwardLoop, hn] at hrun

theorem forwardLoop_sendsFollowWaits (name : String) (events : List LoopEvent) :
    sendsFollowWaits (forwardLoop name events).1 = true := by
  induction events with
  | nil => rfl
  | cons ev more ih =>
    cases ev with
    | ctxDone => rfl
    | chanClosed => rfl
    | command cmd waited resp sendErr =>
      by_cases hn : cmd.Name = name
      · cases sendErr with
        | some e => simp [forwardLoop, hn, sendsFollowWaits]
        | none => simpa [forwardLoop, hn, sendsFollowWaits] using ih
      · cases resp with
        | completes => simpa [forwardLoop, hn, sendsFollowWaits] using ih
        | blocks => simp [forwardLoop, hn, sendsFollowWaits]
        | panics => simp [forwardLoop, hn, sendsFollowWaits]

/-- Claim C8.  In `RegisterService`, whatever the `select` yields and whether or not the sends
on response channels complete: every `stream.Send` comes right after a `WaitForConn` and
carries the namespace, name and id of the command that `WaitForConn` was called for; and for
every command the loop receives whose name is the registered name, the steps continue with
`WaitForConn` for it and then the `stream.Send` of its namespace, name and id (the fields as
the command holds them when it is sent, that is, as `WaitForConn` left them). -/
theorem RegisterService_wait_before_send (s : ExchangeService) (req : RegisterRequest)
    (ctx : Nat) (commandChan : Chan) :
    (∀ events, sendsFollowWaits (s.RegisterService req ctx commandChan events).2.1 = true) ∧
    (∀ pre cmd waited resp sendErr rest,
      (forwardLoop req.ServiceName pre).2 = none → cmd.Name = req.ServiceName →
      ∃ tail,
        (s.RegisterService req ctx commandChan
            (pre ++ .command cmd waited resp sendErr :: rest)).2.1
          = (s.RegisterService req ctx commandChan pre).2.1 ++
            [.waitForConn cmd waited,
             .streamSend
               { NameSpace := waited.NameSpace, ServiceName := waited.Name, Id := waited.ID }]
            ++ tail) := by
  constructor
  · intro events
    simpa [ExchangeService.RegisterService, sendsFollowWaits]
      using forwardLoop_sendsFollowWaits req.ServiceName events
  · intro pre cmd waited resp sendErr rest hrun hn
    simp only [ExchangeService.RegisterService, forwardLoop_append _ pre _ hrun]
    cases sendErr with
    | some e =>
      exact ⟨[], by simp [forwardLoop, hn, toApi]⟩
    | none =>
      exact ⟨(forwardLoop req.ServiceName rest).1, by simp [forwardLoop, hn, toApi]⟩

theorem RegisterService_wait_before_send_witness :
    sendsFollowWaits (newExchangeService.RegisterService ⟨"ns1", "db"⟩ 1 7
      [.command ⟨"ns1", "web", 3, 40⟩ ⟨"ns1", "web", 3, 40⟩ .completes none,
       .command ⟨"ns1", "db", 0, 41⟩ ⟨"ns1", "db", 4, 41⟩ .completes none]).2.1 = true ∧
    (forwardLoop "db"
      [.command ⟨"ns1", "web", 3, 40⟩ ⟨"ns1", "web", 3, 40⟩ .completes none]).2 = none ∧
    ∃ tail,
      (newExchangeService.RegisterService ⟨"ns1", "db"⟩ 1 7
        ([.command ⟨"ns1", "web", 3, 40⟩ ⟨"ns1", "web", 3, 40⟩ .completes none] ++
          .command ⟨"ns1", "db", 0, 41⟩ ⟨"ns1", "db", 4, 41⟩ .blocks none :: [.ctxDone])).2.1
        = (newExchangeService.RegisterService ⟨"ns1", "db"⟩ 1 7
            [.command ⟨"ns1", "web", 3, 40⟩ ⟨"ns1", "web", 3, 40⟩ .completes none]).2.1 ++
          [.waitForConn ⟨"ns1", "db", 0, 41⟩ ⟨"ns1", "db", 4, 41⟩,
           .streamSend { NameSpace := "ns1", ServiceName := "db", Id := 4 }] ++ tail :=
  ⟨(RegisterService_wait_before_send newExchangeService ⟨"ns1", "db"⟩ 1 7).1 _, by decide,
    (RegisterService_wait_before_send newExchangeService ⟨"ns1", "db"⟩ 1 7).2
      [.command ⟨"ns1", "web", 3, 40⟩ ⟨"ns1", "web", 3, 40⟩ .completes none]
      ⟨"ns1", "db", 0, 41⟩ ⟨"ns1", "db", 4, 41⟩ .blocks none [.ctxDone]
      (by decide) (by decide)⟩

/-- Claim C9, amended.  In `RegisterService`, when the loop receives a command whose name
differs from the registered name, it logs and sends an error response on the response channel
of that command, and calls neither `WaitForConn` nor `stream.Send` for it.  When that send
completes, the loop goes on with the following events, what `RegisterService` returns is
decided by them alone, and with no further event it still waits in the `select`.  When the
send blocks or panics, these two steps are the last ones, whatever the following events are,
and `RegisterService` ends blocked or panicked in the send. -/
theorem RegisterService_mismatch_dropped (s : ExchangeService) (req : RegisterRequest)
    (ctx : Nat) (commandChan : Chan) (pre : List LoopEvent) (cmd waited : ConnectCommand)
    (resp : SendOutcome) (sendErr : Option GoError) (rest : List LoopEvent)
    (hrun : (forwardLoop req.ServiceName pre).2 = none)
    (hname : cmd.Name ≠ req.ServiceName) :
    (resp = .completes →
      (s.RegisterService req ctx commandChan
          (pre ++ .command cmd waited resp sendErr :: rest)).2.1
        = (s.RegisterService req ctx commandChan pre).2.1 ++
          [.log "invalid service name",
           .respSend cmd.RespChan (.errorf "service not found")] ++
          (forwardLoop req.ServiceName rest).1 ∧
      (s.RegisterService req ctx commandChan
          (pre ++ .command cmd waited resp sendErr :: rest)).1
        = (forwardLoop req.ServiceName rest).2 ∧
      (s.RegisterService req ctx commandChan (pre ++ [.command cmd waited resp sendErr])).1
        = none) ∧
    (resp ≠ .completes →
      (s.RegisterService req ctx commandChan
          (pre ++ .command cmd waited resp sendErr :: rest)).2.1
        = (s.RegisterService req ctx commandChan pre).2.1 ++
          [.log "invalid service name",
           .respSend cmd.RespChan (.errorf "service not found")] ∧
      (s.RegisterService req ctx commandChan
          (pre ++ .command cmd waited resp sendErr :: rest)).1
        = some (if resp = .blocks then .blocked else .panicked)) := by
  simp only [ExchangeService.RegisterService, forwardLoop_append _ pre _ hrun]
  cases resp with
  | completes => simp [forwardLoop, hname]
  | blocks => simp [forwardLoop, hname]
  | panics => simp [forwardLoop, hname]

theorem RegisterService_mismatch_dropped_witness :
    (forwardLoop "db"
      [.command ⟨"ns1", "db", 0, 41⟩ ⟨"ns1", "db", 4, 41⟩ .completes none]).2 = none ∧
    (⟨"ns1", "web", 3, 40⟩ : ConnectCommand).Name ≠ "db" ∧
    ((newExchangeService.RegisterService ⟨"ns1", "db"⟩ 1 7
        ([.command ⟨"ns1", "db", 0, 41⟩ ⟨"ns1", "db", 4, 41⟩ .completes none] ++
          .command ⟨"ns1", "web", 3, 40⟩ ⟨"ns1", "web", 3, 40⟩ .completes none ::
            [.command ⟨"ns1", "db", 0, 42⟩ ⟨"ns1", "db", 5, 42⟩ .completes none])).2.1
        = (newExchangeService.RegisterService ⟨"ns1", "db"⟩ 1 7
            [.command ⟨"ns1", "db", 0, 41⟩ ⟨"ns1", "db", 4, 41⟩ .completes none]).2.1 ++
          [.log "invalid service name", .respSend 40 (.errorf "service not found")] ++
          (forwardLoop "db"
            [.command ⟨"ns1", "db", 0, 42⟩ ⟨"ns1", "db", 5, 42⟩ .completes none]).1 ∧
      (newExchangeService.RegisterService ⟨"ns1", "db"⟩ 1 7
        ([.command ⟨"ns1", "db", 0, 41⟩ ⟨"ns1", "db", 4, 41⟩ .completes none] ++
          .command ⟨"ns1", "web", 3, 40⟩ ⟨"ns1", "web", 3, 40⟩ .completes none ::
            [.command ⟨"ns1", "db", 0, 42⟩ ⟨"ns1", "db", 5, 42⟩ .completes none])).1
        = (forwardLoop "db"
            [.command ⟨"ns1", "db", 0, 42⟩ ⟨"ns1", "db", 5, 42⟩ .completes none]).2 ∧
      (newExchangeService.RegisterService ⟨"ns1", "db"⟩ 1 7
        ([.command ⟨"ns1", "db", 0, 41⟩ ⟨"ns1", "db", 4, 41⟩ .completes none] ++
          [.command ⟨"ns1", "web", 3, 40⟩ ⟨"ns1", "web", 3, 40⟩ .completes none])).1
        = none) ∧
    ((newExchangeService.RegisterService ⟨"ns1", "db"⟩ 1 7
        ([.command ⟨"ns1", "db", 0, 41⟩ ⟨"ns1", "db", 4, 41⟩ .completes none] ++
          .command ⟨"ns1", "web", 3, 40⟩ ⟨"ns1", "web", 3, 40⟩ .blocks none ::
            [.command ⟨"ns1", "db", 0, 42⟩ ⟨"ns1", "db", 5, 42⟩ .completes none])).2.1
        = (newExchangeService.RegisterService ⟨"ns1", "db"⟩ 1 7
            [.command ⟨"ns1", "db", 0, 41⟩ ⟨"ns1", "db", 4, 41⟩ .completes none]).2.1 ++
          [.log "invalid service name", .respSend 40 (.errorf "service not found")] ∧
      (newExchangeService.RegisterService ⟨"ns1", "db"⟩ 1 7
        ([.command ⟨"ns1", "db", 0, 41⟩ ⟨"ns1", "db", 4, 41⟩ .completes none] ++
          .command ⟨"ns1", "web", 3, 40⟩ ⟨"ns1", "web", 3, 40⟩ .blocks none ::
            [.command ⟨"ns1", "db", 0, 42⟩ ⟨"ns1", "db", 5, 42⟩ .completes none])).1
        = some (if SendOutcome.blocks = .blocks then .blocked else .panicked)) :=
  ⟨by decide, by decide,
    (RegisterService_mismatch_dropped newExchangeService ⟨"ns1", "db"⟩ 1 7
      [.command ⟨"ns1", "db", 0, 41⟩ ⟨"ns1", "db", 4, 41⟩ .completes none]
      ⟨"ns1", "web", 3, 40⟩ ⟨"ns1", "web", 3, 40⟩ .completes none
      [.command ⟨"ns1", "db", 0, 42⟩ ⟨"ns1", "db", 5, 42⟩ .completes none]
      (by decide) (by decide)).1 rfl,
    (RegisterService_mismatch_dropped newExchangeService ⟨"ns1", "db"⟩ 1 7
      [.command ⟨"ns1", "db", 0, 41⟩ ⟨"ns1", "db", 4, 41⟩ .completes none]
      ⟨"ns1", "web", 3, 40⟩ ⟨"ns1", "web", 3, 40⟩ .blocks none
      [.command ⟨"ns1", "db", 0, 42⟩ ⟨"ns1", "db", 5, 42⟩ .completes none]
      (by decide) (by decide)).2 (by decide)⟩

/-- Claim C9 as stated fails when nobody receives on the response channel.  The send of the
error response is a plain send outside the `select`: after a command with a foreign name whose
response is not taken, `RegisterService` stays blocked in that send.  It does not return when
the stream context is done next, where the loop alone returns nil, and a command with the
registered name that follows is not served: there is no `WaitForConn` and no `stream.Send`
for it. -/
theorem RegisterService_mismatch_blocks :
    (forwardLoop "db" [.ctxDone]).2 = some (.returned none) ∧
    (newExchangeService.RegisterService ⟨"ns1", "db"⟩ 1 7
      [.command ⟨"ns1", "web", 3, 40⟩ ⟨"ns1", "web", 3, 40⟩ .blocks none, .ctxDone]).1
      = some .blocked ∧
    (newExchangeService.RegisterService ⟨"ns1", "db"⟩ 1 7
      [.command ⟨"ns1", "web", 3, 40⟩ ⟨"ns1", "web", 3, 40⟩ .blocks none,
       .command ⟨"ns1", "db", 0, 41⟩ ⟨"ns1", "db", 4, 41⟩ .completes none]).1
      = some .blocked ∧
    (newExchangeService.RegisterService ⟨"ns1", "db"⟩ 1 7
      [.command ⟨"ns1", "web", 3, 40⟩ ⟨"ns1", "web", 3, 40⟩ .blocks none,
       .command ⟨"ns1", "db", 0, 41⟩ ⟨"ns1", "db", 4, 41⟩ .completes none]).2.1
      = [.lock .registry, .srvsInsert "db" (NewService 1 "ns1" "db" 7), .unlock .registry,
         .log "Service registered", .log "invalid service name",
         .respSend 40 (.errorf "service not found")] := by
  decide

/-! ## Lock discipline -/

theorem forwardLoop_accessesLocked (guard : Step → Option Mutex)
    (hw : ∀ cmd waited, guard (.waitForConn cmd waited) = none)
    (hs : ∀ msg, guard (.streamSend msg) = none)
    (hl : ∀ msg, guard (.log msg) = none) (hr : ∀ ch e, guard (.respSend ch e) = none)
    (name : String) (events : List LoopEvent) :
    accessesLocked guard [] (forwardLoop name events).1 = true := by
  induction events with
  | nil => rfl
  | cons ev more ih =>
    cases ev with
    | ctxDone => rfl
    | chanClosed => rfl
    | command cmd waited resp sendErr =>
      by_cases hn : cmd.Name = name
      · cases sendErr with
        | some e => simp [forwardLoop, hn, accessesLocked, hw, hs]
        | none => simpa [forwardLoop, hn, accessesLocked, hw, hs] using ih
      · cases resp with
        | completes => simpa [forwardLoop, hn, accessesLocked, hl, hr] using ih
        | blocks => simp [forwardLoop, hn, accessesLocked, hl, hr]
        | panics => simp [forwardLoop, hn, accessesLocked, hl, hr]

theorem forwardLoop_noIoWhileLocked (io : Step → Bool) (name : String)
    (events : List LoopEvent) :
    noIoWhileLocked io [] (forwardLoop name events).1 = true := by
  induction events with
  | nil => rfl
  | cons ev more ih =>
    cases ev with
    | ctxDone => rfl
    | chanClosed => rfl
    | command cmd waited resp sendErr =>
      by_cases hn : cmd.Name = name
      · cases sendErr with
        | some e => simp [forwardLoop, hn, noIoWhileLocked]
        | none => simpa [forwardLoop, hn, noIoWhileLocked] using ih
      · cases resp with
        | completes => simpa [forwardLoop, hn, noIoWhileLocked] using ih
        | blocks => simp [forwardLoop, hn, noIoWhileLocked]
        | panics => simp [forwardLoop, hn, noIoWhileLocked]

theorem rangeLog_accessesLocked (srvs : List (String × Service)) :
    accessesLocked guardOf [.registry] (rangeLog srvs ++ [.unlock .registry]) = true := by
  induction srvs with
  | nil => rfl
  | cons e rest ih =>
    obtain ⟨k, v⟩ := e
    simpa [rangeLog, accessesLocked, guardOf] using ih

theorem rangeLog_no_chanDelivery (srvs : List (String × Service)) :
    noIoWhileLocked chanDelivery [.registry] (rangeLog srvs ++ [.unlock .registry]) = true := by
  induction srvs with
  | nil => rfl
  | cons e rest ih =>
    obtain ⟨k, v⟩ := e
    simpa [rangeLog, noIoWhileLocked, chanDelivery] using ih

/-- The steps of `AddConnection`, whatever its outcome, look the id up under the mutex. -/
theorem AddConnection_accessesLocked (q : ConnectionQueue) (chans : Chans) (id : Nat)
    (conn : ConnResult) :
    accessesLocked guardOfReadInsert [] (q.AddConnection chans id conn).2.1 = true := by
  unfold ConnectionQueue.AddConnection
  cases mapGet q.store id with
  | none => simp [accessesLocked, guardOfReadInsert, guardOf]
  | some ch =>
    simp only []
    cases sendOn chans ch conn with
    | panicked => simp [accessesLocked, guardOfReadInsert, guardOf]
    | blocked => simp [accessesLocked, guardOfReadInsert, guardOf]
    | returned sent =>
      simp only []
      cases closeChan sent ch <;> simp [accessesLocked, guardOfReadInsert, guardOf]

/-- The steps of `AddConnection`, whatever its outcome, perform no I/O under the mutex. -/
theorem AddConnection_noIoWhileLocked (q : ConnectionQueue) (chans : Chans) (id : Nat)
    (conn : ConnResult) :
    noIoWhileLocked ioStep [] (q.AddConnection chans id conn).2.1 = true := by
  unfold ConnectionQueue.AddConnection
  cases mapGet q.store id with
  | none => simp [noIoWhileLocked, ioStep]
  | some ch =>
    simp only []
    cases sendOn chans ch conn with
    | panicked => simp [noIoWhileLocked, ioStep]
    | blocked => simp [noIoWhileLocked, ioStep]
    | returned sent =>
      simp only []
      cases closeChan sent ch <;> simp [noIoWhileLocked, ioStep]

/-- Claim C10 as stated fails in two places.  `AddConnection` on an id that is present, with
a channel that takes the value, deletes the id after it has released the mutex, so a table
access runs with no mutex held; `GetService` on a name that is absent logs the entries of the
registry before it releases the mutex, so I/O runs with a mutex held. -/
theorem lock_discipline_broken :
    ((ConnectionQueue.mk 1 [(1, 10)]).AddConnection [(10, ⟨[], 1, false⟩)] 1 (.conn 5)).2.1
      = [.lock .queue, .storeLookup 1, .unlock .queue,
         .chanSend 10 (.conn 5), .chanClose 10, .storeDelete 1] ∧
    accessesLocked guardOf []
      ((ConnectionQueue.mk 1 [(1, 10)]).AddConnection [(10, ⟨[], 1, false⟩)] 1 (.conn 5)).2.1
      = false ∧
    disciplined
      ((ConnectionQueue.mk 1 [(1, 10)]).AddConnection [(10, ⟨[], 1, false⟩)] 1 (.conn 5)).2.1
      = false ∧
    ((ExchangeService.mk [("db", NewService 1 "ns1" "db" 7)]).GetService "web").2.1
      = [.lock .registry, .srvsLookup "web", .srvsRange "db", .log "Service",
         .unlock .registry] ∧
    noIoWhileLocked ioStep []
      ((ExchangeService.mk [("db", NewService 1 "ns1" "db" 7)]).GetService "web").2.1 = false ∧
    disciplined ((ExchangeService.mk [("db", NewService 1 "ns1" "db" 7)]).GetService "web").2.1
      = false := by
  decide

/-- Claim C10, amended.  With lock and unlock as steps, and whatever the channels do:
`AddRequest` and `RegisterService` keep the whole discipline (every table access under the
mutex of its structure, no I/O under a mutex); `AddConnection` looks the id up under the mutex
and performs all its I/O with no mutex held; `GetService` makes every access to the registry
under the mutex and delivers on no channel under it, and the only I/O it performs under the
mutex is the logging of the entries when the name is absent from a registry that is not
empty. -/
theorem lock_discipline_kept (q : ConnectionQueue) (chans : Chans) (connChan : Chan)
    (id : Nat) (conn : ConnResult) (s : ExchangeService) (req : RegisterRequest) (ctx : Nat)
    (commandChan : Chan) (events : List LoopEvent) (address : String) :
    disciplined (q.AddRequest connChan).2.1 = true ∧
    accessesLocked guardOfReadInsert [] (q.AddConnection chans id conn).2.1 = true ∧
    noIoWhileLocked ioStep [] (q.AddConnection chans id conn).2.1 = true ∧
    disciplined (s.RegisterService req ctx commandChan events).2.1 = true ∧
    accessesLocked guardOf [] (s.GetService address).2.1 = true ∧
    noIoWhileLocked chanDelivery [] (s.GetService address).2.1 = true ∧
    noIoWhileLocked ioStep [] (s.GetService address).2.1
      = ((mapGet s.srvs address).isSome || s.srvs.isEmpty) := by
  refine ⟨?_, AddConnection_accessesLocked q chans id conn,
    AddConnection_noIoWhileLocked q chans id conn, ?_, ?_, ?_, ?_⟩
  · simp [disciplined, ConnectionQueue.AddRequest, accessesLocked, noIoWhileLocked, guardOf,
      ioStep]
  · have h1 := forwardLoop_accessesLocked guardOf (fun _ _ => rfl) (fun _ => rfl) (fun _ => rfl)
      (fun _ _ => rfl) req.ServiceName events
    have h2 := forwardLoop_noIoWhileLocked ioStep req.ServiceName events
    simp [disciplined, ExchangeService.RegisterService, accessesLocked, noIoWhileLocked,
      guardOf, ioStep, h1, h2]
  · unfold ExchangeService.GetService
    cases mapGet s.srvs address with
    | none => simpa [accessesLocked, guardOf] using rangeLog_accessesLocked s.srvs
    | some srv => simp [accessesLocked, guardOf]
  · unfold ExchangeService.GetService
    cases mapGet s.srvs address with
    | none => simpa [noIoWhileLocked, chanDelivery] using rangeLog_no_chanDelivery s.srvs
    | some srv => simp [noIoWhileLocked, chanDelivery]
  · unfold ExchangeService.GetService
    cases mapGet s.srvs address with
    | some srv => simp [noIoWhileLocked, ioStep]
    | none =>
      cases hs : s.srvs with
      | nil => simp [rangeLog, noIoWhileLocked, ioStep]
      | cons e rest =>
        obtain ⟨k, v⟩ := e
        simp [rangeLog, noIoWhileLocked, ioStep]

/-! ## The bridge -/

theorem copyLoop_unlimited (readEnd : Option GoError) (chunks : List (List Byte))
    (written : Nat) (out : List Byte) :
    copyLoop none readEnd chunks written out
      = { written := written + chunks.flatten.length, err := readEnd,
          output := out ++ chunks.flatten } := by
  induction chunks generalizing written out with
  | nil => simp [copyLoop]
  | cons chunk rest ih =>
    simp only [copyLoop, ih, List.flatten_cons, List.length_append, List.append_assoc,
      Nat.add_assoc]

theorem collectErrs_eq_nil_iff (arrived : List (Option GoError)) :
    collectErrs arrived = [] ↔ ∀ e ∈ arrived, closedOrNil e = true := by
  induction arrived with
  | nil => simp [collectErrs]
  | cons e rest ih =>
    cases e with
    | none => simpa [collectErrs, closedOrNil] using ih
    | some err =>
      by_cases h : errorsIs netErrClosed err = true
      · simpa [collectErrs, closedOrNil, h] using ih
      · simp [collectErrs, closedOrNil, h]

/-- On the three values it receives, `Run` returns nil exactly when each of them is nil or
matches `net.ErrClosed`. -/
theorem runError_eq_none_iff (arrived : List (Option GoError)) :
    runError arrived = none ↔ ∀ e ∈ arrived, closedOrNil e = true := by
  rw [← collectErrs_eq_nil_iff]
  unfold runError
  cases h : collectErrs arrived with
  | nil => simp
  | cons e rest => simp

theorem GoError.contains_self (e : GoError) : GoError.contains e e = true := by
  cases e <;> simp [GoError.contains]

theorem GoError.containsAny_of_mem (e : GoError) (errs : List GoError) (h : e ∈ errs) :
    GoError.containsAny e errs = true := by
  induction errs with
  | nil => cases h
  | cons t rest ih =>
    rcases List.mem_cons.mp h with rfl | h2
    · simp [GoError.containsAny, GoError.contains_self]
    · simp [GoError.containsAny, ih h2]

theorem mem_collectErrs (arrived : List (Option GoError)) (e : GoError)
    (hm : some e ∈ arrived) (hc : closedOrNil (some e) = false) : e ∈ collectErrs arrived := by
  induction arrived with
  | nil => cases hm
  | cons a rest ih =>
    have hne : errorsIs netErrClosed e = false := hc
    rcases List.mem_cons.mp hm with rfl | h2
    · simp [collectErrs, hne]
    · cases a with
      | none => simpa [collectErrs] using ih h2
      | some err =>
        by_cases h : errorsIs netErrClosed err = true
        · simpa [collectErrs, h] using ih h2
        · simp [collectErrs, h, ih h2]

/-- Every value `Run` receives that is neither nil nor matches `net.ErrClosed` occurs in the
error `Run` returns. -/
theorem runError_contains (arrived : List (Option GoError)) (e : GoError)
    (hm : some e ∈ arrived) (hc : closedOrNil (some e) = false) :
    ∃ r, runError arrived = some r ∧ GoError.contains e r = true := by
  have hmem := mem_collectErrs arrived e hm hc
  have hpos : (collectErrs arrived).length > 0 := List.length_pos_of_mem hmem
  refine ⟨.wrap "error to run bridge" (.join (collectErrs arrived)), ?_, ?_⟩
  · simp [runError, hpos]
  · simp [GoError.contains, GoError.containsAny_of_mem e _ hmem]

/-- Claim C5 fails on the code.  With both copies ending cleanly, `src.Close()` returning
`net.ErrClosed` and `dest.Close()` returning another error, `Close` joins the two, the joined
error matches `net.ErrClosed`, and `Run` filters it out as a whole: under every schedule `Run`
returns nil although the outcome of closing `dest` is neither nil nor `net.ErrClosed`. -/
theorem Run_drops_close_error (sch : Schedule) :
    (NewBridge
      { input := [], readEnd := none, writeLimit := none,
        closeErr := some (.sentinel netErrClosed) }
      { input := [], readEnd := none, writeLimit := none,
        closeErr := some (.errorf "input/output error") }).Close false
      = some (.wrap "error to close connections"
          (.join [.sentinel netErrClosed, .errorf "input/output error"])) ∧
    closedOrNil (some (.errorf "input/output error")) = false ∧
    ((NewBridge
      { input := [], readEnd := none, writeLimit := none,
        closeErr := some (.sentinel netErrClosed) }
      { input := [], readEnd := none, writeLimit := none,
        closeErr := some (.errorf "input/output error") }).Run sch).err = none := by
  obtain ⟨order, destFirst, elapsed⟩ := sch
  refine ⟨by decide, by decide, ?_⟩
  cases order <;> cases destFirst <;> rfl

/-- Claim C6.  For a bridge made by `NewBridge src dest` whose endpoints supply their bytes and
then end of stream, with no failing read, write or close: under every schedule `Run` returns
`Sent` equal to the number of bytes `dest` supplied, `Recv` equal to the number of bytes `src`
supplied, a nil error, and each endpoint was given exactly the bytes of the other, in order. -/
theorem Run_round_trip (src dest : Endpoint) (sch : Schedule)
    (hsr : src.readEnd = none) (hdr : dest.readEnd = none)
    (hsw : src.writeLimit = none) (hdw : dest.writeLimit = none)
    (hsc : src.closeErr = none) (hdc : dest.closeErr = none) :
    ((NewBridge src dest).Run sch).stats.Sent = (dest.input.flatten.length : Int) ∧
    ((NewBridge src dest).Run sch).stats.Recv = (src.input.flatten.length : Int) ∧
    ((NewBridge src dest).Run sch).toSrc = dest.input.flatten ∧
    ((NewBridge src dest).Run sch).toDest = src.input.flatten ∧
    ((NewBridge src dest).Run sch).err = none := by
  have hdown : ioCopy src dest
      = { written := dest.input.flatten.length, err := none, output := dest.input.flatten } := by
    simp [ioCopy, hsw, hdr, copyLoop_unlimited]
  have hup : ioCopy dest src
      = { written := src.input.flatten.length, err := none, output := src.input.flatten } := by
    simp [ioCopy, hdw, hsr, copyLoop_unlimited]
  have hclose : ∀ f, (NewBridge src dest).Close f = none := by
    intro f
    cases f <;> simp [Bridge.Close, NewBridge, hsc, hdc, nonNil]
  refine ⟨?_, ?_, ?_, ?_, ?_⟩
  · simp [Bridge.Run, NewBridge, hdown]
  · simp [Bridge.Run, NewBridge, hup]
  · simp [Bridge.Run, NewBridge, hdown]
  · simp [Bridge.Run, NewBridge, hup]
  · have hc := hclose sch.destClosesFirst
    simp only [NewBridge] at hc
    simp only [Bridge.Run, NewBridge, hdown, hup, hc]
    cases sch.order <;> rfl

theorem Run_round_trip_witness :
    ((NewBridge
        { input := [[80, 73], [78, 71]], readEnd := none, writeLimit := none, closeErr := none }
        { input := [[79], [75, 33]], readEnd := none, writeLimit := none, closeErr := none }).Run
          { order := .recvSentClose, destClosesFirst := true, elapsed := 9 }).stats.Sent
      = (([[79], [75, 33]] : List (List Byte)).flatten.length : Int) ∧
    ((NewBridge
        { input := [[80, 73], [78, 71]], readEnd := none, writeLimit := none, closeErr := none }
        { input := [[79], [75, 33]], readEnd := none, writeLimit := none, closeErr := none }).Run
          { order := .recvSentClose, destClosesFirst := true, elapsed := 9 }).stats.Recv
      = (([[80, 73], [78, 71]] : List (List Byte)).flatten.length : Int) ∧
    ((NewBridge
        { input := [[80, 73], [78, 71]], readEnd := none, writeLimit := none, closeErr := none }
        { input := [[79], [75, 33]], readEnd := none, writeLimit := none, closeErr := none }).Run
          { order := .recvSentClose, destClosesFirst := true, elapsed := 9 }).toSrc
      = ([[79], [75, 33]] : List (List Byte)).flatten ∧
    ((NewBridge
        { input := [[80, 73], [78, 71]], readEnd := none, writeLimit := none, closeErr := none }
        { input := [[79], [75, 33]], readEnd := none, writeLimit := none, closeErr := none }).Run
          { order := .recvSentClose, destClosesFirst := true, elapsed := 9 }).toDest
      = ([[80, 73], [78, 71]] : List (List Byte)).flatten ∧
    ((NewBridge
        { input := [[80, 73], [78, 71]], readEnd := none, writeLimit := none, closeErr := none }
        { input := [[79], [75, 33]], readEnd := none, writeLimit := none, closeErr := none }).Run
          { order := .recvSentClose, destClosesFirst := true, elapsed := 9 }).err = none :=
  Run_round_trip
    { input := [[80, 73], [78, 71]], readEnd := none, writeLimit := none, closeErr := none }
    { input := [[79], [75, 33]], readEnd := none, writeLimit := none, closeErr := none }
    { order := .recvSentClose, destClosesFirst := true, elapsed := 9 } rfl rfl rfl rfl rfl rfl

end GrpcHub
